import Mathlib

set_option linter.unusedVariables false

set_option linter.dupNamespace false

/-! Shallow embedding of the fonero plugin cache (cockroachdb driver) of the
politeia governance backend: the plugin data model, the command handlers of
the Exec dispatcher, and the lazy vote-tally engine, together with proofs
about them. Go strings are modeled as Lean String (a list of characters),
Go uint64/int fields as Nat, Go int64 timestamps as Int, and fallible Go
calls as Except values. Database tables are lists of rows in insertion
order; gorm Find into a struct is modeled as first match, Find into a slice
as filter, Create as append, Delete as filter-out. -/

/-- Go strings.Split with separator comma, at the character-list level.
Go returns a single empty segment for the empty string. -/
def splitCommaChars : List Char → List (List Char)
  | [] => [[]]
  | c :: rest =>
    if c = ',' then [] :: splitCommaChars rest
    else
      match splitCommaChars rest with
      | [] => [[c]]
      | s :: ss => (c :: s) :: ss

/-- Go strings.Join with separator comma, at the character-list level. -/
def joinCommaChars : List (List Char) → List Char
  | [] => []
  | [s] => s
  | s :: ss => s ++ ',' :: joinCommaChars ss

/-- Go strings.Split(s, ",") on the String wrapper. -/
def goSplitComma (s : String) : List String :=
  (splitCommaChars s.data).map String.mk

/-- Go strings.Join(ts, ",") on the String wrapper. -/
def goJoinComma (ts : List String) : String :=
  String.mk (joinCommaChars (ts.map String.data))

/-- Go strconv.FormatUint(n, 16): lowercase hexadecimal rendering. -/
def natToHex (n : Nat) : String :=
  String.mk (Nat.toDigits 16 n)

/-- Go strconv.FormatUint(n, 10) and fmt.Sprint on a uint64: decimal rendering. -/
def natToDec (n : Nat) : String :=
  toString n

/-- Go strconv.ParseUint(s, 10, 64) restricted to what the handlers need:
a non-empty all-digit decimal string parses to its value, anything else
fails (the 64-bit overflow bound is not modeled). -/
def goParseUint (s : String) : Option Nat :=
  if !s.data.isEmpty && s.data.all Char.isDigit then
    some (s.data.foldl (fun n c => n * 10 + (c.toNat - 48)) 0)
  else none

/-- Errors surfaced by the cache layer: cache.ErrRecordNotFound,
cache.ErrInvalidPluginCmd, payload decode errors, and wrapped storage
errors (fmt.Errorf with operation context). -/
inductive CacheErr
  | errRecordNotFound
  | errInvalidPluginCmd
  | decodeErr
  | storage (msg : String)
  deriving DecidableEq

namespace foneroplugin

/-- Plugin command name constants. Modelled from the spec: the foneroplugin
package is not part of the sources; §6 of the spec fixes these stable
command strings. -/
def CmdAuthorizeVote : String := "authorizevote"

def CmdStartVote : String := "startvote"

def CmdVoteDetails : String := "votedetails"

def CmdBallot : String := "ballot"

def CmdBestBlock : String := "bestblock"

def CmdNewComment : String := "newcomment"

def CmdLikeComment : String := "likecomment"

def CmdCensorComment : String := "censorcomment"

def CmdGetComment : String := "getcomment"

def CmdGetComments : String := "getcomments"

def CmdProposalVotes : String := "proposalvotes"

def CmdCommentLikes : String := "commentlikes"

def CmdProposalCommentsLikes : String := "proposalcommentslikes"

def CmdInventory : String := "inventory"

def CmdLoadVoteResults : String := "loadvoteresults"

def CmdTokenInventory : String := "tokeninventory"

def CmdVoteSummary : String := "votesummary"

/-- Modelled from the spec: the authorize action string recognized by the
vote-summary reply (foneroplugin.AuthVoteActionAuthorize). -/
def AuthVoteActionAuthorize : String := "authorize"

/-- foneroplugin.AuthorizeVote command payload. Modelled from the spec and
from its uses in the converters; the foneroplugin package is not part of
the sources. -/
structure AuthorizeVote where
  Action : String
  Token : String
  Signature : String
  PublicKey : String
  Receipt : String
  Timestamp : Int
  deriving DecidableEq

/-- foneroplugin.AuthorizeVoteReply payload, modelled from its uses. -/
structure AuthorizeVoteReply where
  RecordVersion : String
  Receipt : String
  Timestamp : Int
  deriving DecidableEq

/-- foneroplugin.NewComment command payload, modelled from its uses. -/
structure NewComment where
  Token : String
  ParentID : String
  Comment : String
  Signature : String
  PublicKey : String
  deriving DecidableEq

/-- foneroplugin.NewCommentReply payload, modelled from its uses. -/
structure NewCommentReply where
  CommentID : String
  Receipt : String
  Timestamp : Int
  deriving DecidableEq

/-- foneroplugin.Comment, modelled from its uses in the converters. -/
structure Comment where
  Token : String
  ParentID : String
  Comment : String
  Signature : String
  PublicKey : String
  CommentID : String
  Receipt : String
  Timestamp : Int
  TotalVotes : Nat
  ResultVotes : Int
  Censored : Bool
  deriving DecidableEq

/-- foneroplugin.LikeComment, modelled from its uses in the converters. -/
structure LikeComment where
  Token : String
  CommentID : String
  Action : String
  Signature : String
  PublicKey : String
  deriving DecidableEq

/-- foneroplugin.CensorComment command payload, modelled from its uses. -/
structure CensorComment where
  Token : String
  CommentID : String
  deriving DecidableEq

/-- foneroplugin.GetComment command payload, modelled from its uses. -/
structure GetComment where
  Token : String
  CommentID : String
  deriving DecidableEq

/-- foneroplugin.GetCommentReply payload. -/
structure GetCommentReply where
  Comment : Comment
  deriving DecidableEq

/-- foneroplugin.GetComments command payload. -/
structure GetComments where
  Token : String
  deriving DecidableEq

/-- foneroplugin.GetCommentsReply payload. -/
structure GetCommentsReply where
  Comments : List Comment
  deriving DecidableEq

/-- foneroplugin.CommentLikes command payload. -/
structure CommentLikes where
  Token : String
  CommentID : String
  deriving DecidableEq

/-- foneroplugin.CommentLikesReply payload. -/
structure CommentLikesReply where
  CommentLikes : List LikeComment
  deriving DecidableEq

/-- foneroplugin.GetProposalCommentsLikes command payload. -/
structure GetProposalCommentsLikes where
  Token : String
  deriving DecidableEq

/-- foneroplugin.GetProposalCommentsLikesReply payload. -/
structure GetProposalCommentsLikesReply where
  CommentsLikes : List LikeComment
  deriving DecidableEq

/-- foneroplugin.VoteOption, modelled from its uses in the converters. -/
structure VoteOption where
  Id : String
  Description : String
  Bits : Nat
  deriving DecidableEq

/-- foneroplugin.Vote, modelled from its uses in the converters. -/
structure Vote where
  Token : String
  Mask : Nat
  Duration : Nat
  QuorumPercentage : Nat
  PassPercentage : Nat
  Options : List VoteOption
  deriving DecidableEq

/-- foneroplugin.StartVote command payload, modelled from its uses. -/
structure StartVote where
  PublicKey : String
  Signature : String
  Vote : Vote
  deriving DecidableEq

/-- foneroplugin.StartVoteReply payload, modelled from its uses. EndHeight
is carried as a decimal string on the wire and parsed by the handlers. -/
structure StartVoteReply where
  StartBlockHeight : String
  StartBlockHash : String
  EndHeight : String
  EligibleTickets : List String
  deriving DecidableEq

/-- foneroplugin.VoteDetails command payload. -/
structure VoteDetails where
  Token : String
  deriving DecidableEq

/-- foneroplugin.VoteDetailsReply payload. -/
structure VoteDetailsReply where
  AuthorizeVote : AuthorizeVote
  StartVote : StartVote
  StartVoteReply : StartVoteReply
  deriving DecidableEq

/-- foneroplugin.CastVote, modelled from its uses in the converters. -/
structure CastVote where
  Token : String
  Ticket : String
  VoteBit : String
  Signature : String
  deriving DecidableEq

/-- foneroplugin.Ballot command payload: a batch of cast votes. -/
structure Ballot where
  Votes : List CastVote
  deriving DecidableEq

/-- foneroplugin.VoteResults command payload (the proposalvotes query). -/
structure VoteResults where
  Token : String
  deriving DecidableEq

/-- foneroplugin.VoteResultsReply payload. -/
structure VoteResultsReply where
  StartVote : StartVote
  CastVotes : List CastVote
  deriving DecidableEq

/-- foneroplugin.LoadVoteResults command payload. -/
structure LoadVoteResults where
  BestBlock : Nat
  deriving DecidableEq

/-- foneroplugin.LoadVoteResultsReply payload (empty). -/
structure LoadVoteResultsReply where
  deriving DecidableEq

/-- foneroplugin.TokenInventory command payload. -/
structure TokenInventory where
  BestBlock : Nat
  deriving DecidableEq

/-- foneroplugin.TokenInventoryReply payload: the five token categories. -/
structure TokenInventoryReply where
  Pre : List String
  Active : List String
  Approved : List String
  Rejected : List String
  Abandoned : List String
  deriving DecidableEq

/-- foneroplugin.VoteSummary command payload. -/
structure VoteSummary where
  Token : String
  deriving DecidableEq

/-- foneroplugin.VoteOptionResult, modelled from its uses. -/
structure VoteOptionResult where
  ID : String
  Description : String
  Bits : Nat
  Votes : Nat
  deriving DecidableEq

/-- foneroplugin.VoteSummaryReply payload, modelled from its uses. -/
structure VoteSummaryReply where
  Authorized : Bool
  EndHeight : String
  EligibleTicketCount : Nat
  QuorumPercentage : Nat
  PassPercentage : Nat
  Results : List VoteOptionResult
  deriving DecidableEq

/-- foneroplugin.InventoryReply as used by cmdInventory (only the comments
field of the full inventory is produced by that path). -/
structure InventoryReply where
  Comments : List Comment
  deriving DecidableEq

end foneroplugin

/-- A Go payload string: either the canonical encoding of one of the plugin
command or reply values, the literal empty string, or a string that decodes
as none of them (structurally malformed for every decoder). -/
inductive Msg
  | emptyStr
  | malformed
  | authorizeVote (v : foneroplugin.AuthorizeVote)
  | authorizeVoteReply (v : foneroplugin.AuthorizeVoteReply)
  | newComment (v : foneroplugin.NewComment)
  | newCommentReply (v : foneroplugin.NewCommentReply)
  | likeComment (v : foneroplugin.LikeComment)
  | censorComment (v : foneroplugin.CensorComment)
  | getComment (v : foneroplugin.GetComment)
  | getCommentReply (v : foneroplugin.GetCommentReply)
  | getComments (v : foneroplugin.GetComments)
  | getCommentsReply (v : foneroplugin.GetCommentsReply)
  | commentLikes (v : foneroplugin.CommentLikes)
  | commentLikesReply (v : foneroplugin.CommentLikesReply)
  | proposalCommentsLikes (v : foneroplugin.GetProposalCommentsLikes)
  | proposalCommentsLikesReply (v : foneroplugin.GetProposalCommentsLikesReply)
  | startVote (v : foneroplugin.StartVote)
  | startVoteReply (v : foneroplugin.StartVoteReply)
  | voteDetails (v : foneroplugin.VoteDetails)
  | voteDetailsReply (v : foneroplugin.VoteDetailsReply)
  | ballot (v : foneroplugin.Ballot)
  | voteResults (v : foneroplugin.VoteResults)
  | voteResultsReply (v : foneroplugin.VoteResultsReply)
  | loadVoteResults (v : foneroplugin.LoadVoteResults)
  | loadVoteResultsReply (v : foneroplugin.LoadVoteResultsReply)
  | tokenInventory (v : foneroplugin.TokenInventory)
  | tokenInventoryReply (v : foneroplugin.TokenInventoryReply)
  | voteSummary (v : foneroplugin.VoteSummary)
  | voteSummaryReply (v : foneroplugin.VoteSummaryReply)
  | inventoryReply (v : foneroplugin.InventoryReply)
  deriving DecidableEq

namespace foneroplugin

/-- foneroplugin.DecodeAuthorizeVote: fails with a decode error on any
payload that is not a well-formed AuthorizeVote encoding. -/
def DecodeAuthorizeVote : Msg → Except CacheErr AuthorizeVote
  | .authorizeVote v => .ok v
  | _ => .error .decodeErr

/-- foneroplugin.DecodeAuthorizeVoteReply. -/
def DecodeAuthorizeVoteReply : Msg → Except CacheErr AuthorizeVoteReply
  | .authorizeVoteReply v => .ok v
  | _ => .error .decodeErr

/-- foneroplugin.DecodeNewComment. -/
def DecodeNewComment : Msg → Except CacheErr NewComment
  | .newComment v => .ok v
  | _ => .error .decodeErr

/-- foneroplugin.DecodeNewCommentReply. -/
def DecodeNewCommentReply : Msg → Except CacheErr NewCommentReply
  | .newCommentReply v => .ok v
  | _ => .error .decodeErr

/-- foneroplugin.DecodeLikeComment. -/
def DecodeLikeComment : Msg → Except CacheErr LikeComment
  | .likeComment v => .ok v
  | _ => .error .decodeErr

/-- foneroplugin.DecodeCensorComment. -/
def DecodeCensorComment : Msg → Except CacheErr CensorComment
  | .censorComment v => .ok v
  | _ => .error .decodeErr

/-- foneroplugin.DecodeGetComment. -/
def DecodeGetComment : Msg → Except CacheErr GetComment
  | .getComment v => .ok v
  | _ => .error .decodeErr

/-- foneroplugin.DecodeGetComments. -/
def DecodeGetComments : Msg → Except CacheErr GetComments
  | .getComments v => .ok v
  | _ => .error .decodeErr

/-- foneroplugin.DecodeCommentLikes. -/
def DecodeCommentLikes : Msg → Except CacheErr CommentLikes
  | .commentLikes v => .ok v
  | _ => .error .decodeErr

/-- foneroplugin.DecodeGetProposalCommentsLikes. -/
def DecodeGetProposalCommentsLikes : Msg → Except CacheErr GetProposalCommentsLikes
  | .proposalCommentsLikes v => .ok v
  | _ => .error .decodeErr

/-- foneroplugin.DecodeStartVote. -/
def DecodeStartVote : Msg → Except CacheErr StartVote
  | .startVote v => .ok v
  | _ => .error .decodeErr

/-- foneroplugin.DecodeStartVoteReply. -/
def DecodeStartVoteReply : Msg → Except CacheErr StartVoteReply
  | .startVoteReply v => .ok v
  | _ => .error .decodeErr

/-- foneroplugin.DecodeVoteDetails. -/
def DecodeVoteDetails : Msg → Except CacheErr VoteDetails
  | .voteDetails v => .ok v
  | _ => .error .decodeErr

/-- foneroplugin.DecodeBallot. -/
def DecodeBallot : Msg → Except CacheErr Ballot
  | .ballot v => .ok v
  | _ => .error .decodeErr

/-- foneroplugin.DecodeVoteResults (the proposalvotes query payload). -/
def DecodeVoteResults : Msg → Except CacheErr VoteResults
  | .voteResults v => .ok v
  | _ => .error .decodeErr

/-- foneroplugin.DecodeLoadVoteResults. -/
def DecodeLoadVoteResults : Msg → Except CacheErr LoadVoteResults
  | .loadVoteResults v => .ok v
  | _ => .error .decodeErr

/-- foneroplugin.DecodeTokenInventory. -/
def DecodeTokenInventory : Msg → Except CacheErr TokenInventory
  | .tokenInventory v => .ok v
  | _ => .error .decodeErr

/-- foneroplugin.DecodeVoteSummary. -/
def DecodeVoteSummary : Msg → Except CacheErr VoteSummary
  | .voteSummary v => .ok v
  | _ => .error .decodeErr

/-- foneroplugin.EncodeGetCommentReply: encoding never fails. -/
def EncodeGetCommentReply (r : GetCommentReply) : Msg := .getCommentReply r

/-- foneroplugin.EncodeGetCommentsReply. -/
def EncodeGetCommentsReply (r : GetCommentsReply) : Msg := .getCommentsReply r

/-- foneroplugin.EncodeCommentLikesReply. -/
def EncodeCommentLikesReply (r : CommentLikesReply) : Msg := .commentLikesReply r

/-- foneroplugin.EncodeGetProposalCommentsLikesReply. -/
def EncodeGetProposalCommentsLikesReply (r : GetProposalCommentsLikesReply) : Msg :=
  .proposalCommentsLikesReply r

/-- foneroplugin.EncodeVoteDetailsReply. -/
def EncodeVoteDetailsReply (r : VoteDetailsReply) : Msg := .voteDetailsReply r

/-- foneroplugin.EncodeVoteResultsReply. -/
def EncodeVoteResultsReply (r : VoteResultsReply) : Msg := .voteResultsReply r

/-- foneroplugin.EncodeLoadVoteResultsReply. -/
def EncodeLoadVoteResultsReply (r : LoadVoteResultsReply) : Msg := .loadVoteResultsReply r

/-- foneroplugin.EncodeTokenInventoryReply. -/
def EncodeTokenInventoryReply (r : TokenInventoryReply) : Msg := .tokenInventoryReply r

/-- foneroplugin.EncodeVoteSummaryReply. -/
def EncodeVoteSummaryReply (r : VoteSummaryReply) : Msg := .voteSummaryReply r

/-- foneroplugin.EncodeInventoryReply. -/
def EncodeInventoryReply (r : InventoryReply) : Msg := .inventoryReply r

end foneroplugin

namespace cockroachdb

/-- Vote option ID designated as the approval option (constant
voteOptionIDApproved = "yes" in the source). -/
def voteOptionIDApproved : String := "yes"

/-- Modelled from the spec: the politeiad api v1 record status for public
records (pd.RecordStatusPublic); the api package is not part of the
sources and only the distinctness of the status values matters here. -/
def RecordStatusPublic : Int := 4

/-- Modelled from the spec: the politeiad api v1 record status for archived
(abandoned) records (pd.RecordStatusArchived). -/
def RecordStatusArchived : Int := 6

/-- Record row of the records table, restricted to the fields the fonero
plugin queries read (token, version, status, timestamp); the content
fields (merkle, signature, metadata, files) are carried but unused. -/
structure Record where
  Key : String
  Token : String
  Version : Nat
  Status : Int
  Timestamp : Int
  Merkle : String
  Signature : String
  deriving DecidableEq

/-- Comment row of the comments table (composite Key = token + commentID). -/
structure Comment where
  Key : String
  Token : String
  ParentID : String
  Comment : String
  Signature : String
  PublicKey : String
  CommentID : String
  Receipt : String
  Timestamp : Int
  Censored : Bool
  deriving DecidableEq

/-- LikeComment row of the comment_likes table. -/
structure LikeComment where
  Token : String
  CommentID : String
  Action : String
  Signature : String
  PublicKey : String
  deriving DecidableEq

/-- AuthorizeVote row of the authorize_votes table
(composite Key = token + record version string). -/
structure AuthorizeVote where
  Key : String
  Token : String
  Version : Nat
  Action : String
  Signature : String
  PublicKey : String
  Receipt : String
  Timestamp : Int
  deriving DecidableEq

/-- The Go zero value of an AuthorizeVote row, left in place by a gorm
lookup that finds no row. -/
def AuthorizeVote.zero : AuthorizeVote :=
  { Key := "", Token := "", Version := 0, Action := "", Signature := ""
    PublicKey := "", Receipt := "", Timestamp := 0 }

/-- VoteOption row of the vote_options table. -/
structure VoteOption where
  Token : String
  ID : String
  Description : String
  Bits : Nat
  deriving DecidableEq

/-- StartVote row of the start_votes table; the associated vote_options
rows are carried inline (gorm association Options). EligibleTickets is the
comma-joined ticket list; EndHeight is the parsed end height. -/
structure StartVote where
  Token : String
  Mask : Nat
  Duration : Nat
  QuorumPercentage : Nat
  PassPercentage : Nat
  Options : List VoteOption
  PublicKey : String
  Signature : String
  StartBlockHeight : String
  StartBlockHash : String
  EndHeight : Nat
  EligibleTickets : String
  EligibleTicketCount : Nat
  deriving DecidableEq

/-- The Go zero value of a StartVote row, left in place by a gorm lookup
that finds no row. -/
def StartVote.zero : StartVote :=
  { Token := "", Mask := 0, Duration := 0, QuorumPercentage := 0
    PassPercentage := 0, Options := [], PublicKey := "", Signature := ""
    StartBlockHeight := "", StartBlockHash := "", EndHeight := 0
    EligibleTickets := "", EligibleTicketCount := 0 }

/-- CastVote row of the cast_votes table (TokenVoteBit is the derived
token + voteBit composite used for tally grouping). -/
structure CastVote where
  Token : String
  Ticket : String
  VoteBit : String
  Signature : String
  TokenVoteBit : String
  deriving DecidableEq

/-- VoteOptionResult row of the vote_option_results table. -/
structure VoteOptionResult where
  Key : String
  Votes : Nat
  Option : VoteOption
  deriving DecidableEq

/-- VoteResults row of the vote_results table; the associated
vote_option_results rows are carried inline (gorm association Results). -/
structure VoteResults where
  Token : String
  Approved : Bool
  Results : List VoteOptionResult
  deriving DecidableEq

/-- The plugin-owned tables of the cache, as lists of rows in insertion
order. -/
structure Db where
  records : List Record
  comments : List Comment
  likeComments : List LikeComment
  castVotes : List CastVote
  authorizeVotes : List AuthorizeVote
  startVotes : List StartVote
  voteResults : List VoteResults
  deriving DecidableEq

/-- A cache with all tables empty. -/
def Db.empty : Db :=
  { records := [], comments := [], likeComments := [], castVotes := []
    authorizeVotes := [], startVotes := [], voteResults := [] }

/-- convertNewCommentFromFonero. -/
def convertNewCommentFromFonero (nc : foneroplugin.NewComment)
    (ncr : foneroplugin.NewCommentReply) : Comment :=
  { Key := nc.Token ++ ncr.CommentID
    Token := nc.Token
    ParentID := nc.ParentID
    Comment := nc.Comment
    Signature := nc.Signature
    PublicKey := nc.PublicKey
    CommentID := ncr.CommentID
    Receipt := ncr.Receipt
    Timestamp := ncr.Timestamp
    Censored := false }

/-- convertCommentFromFonero. -/
def convertCommentFromFonero (c : foneroplugin.Comment) : Comment :=
  { Key := c.Token ++ c.CommentID
    Token := c.Token
    ParentID := c.ParentID
    Comment := c.Comment
    Signature := c.Signature
    PublicKey := c.PublicKey
    CommentID := c.CommentID
    Receipt := c.Receipt
    Timestamp := c.Timestamp
    Censored := false }

/-- convertCommentToFonero. -/
def convertCommentToFonero (c : Comment) : foneroplugin.Comment :=
  { Token := c.Token
    ParentID := c.ParentID
    Comment := c.Comment
    Signature := c.Signature
    PublicKey := c.PublicKey
    CommentID := c.CommentID
    Receipt := c.Receipt
    Timestamp := c.Timestamp
    TotalVotes := 0
    ResultVotes := 0
    Censored := c.Censored }

/-- convertLikeCommentFromFonero. -/
def convertLikeCommentFromFonero (lc : foneroplugin.LikeComment) : LikeComment :=
  { Token := lc.Token
    CommentID := lc.CommentID
    Action := lc.Action
    Signature := lc.Signature
    PublicKey := lc.PublicKey }

/-- convertLikeCommentToFonero. -/
def convertLikeCommentToFonero (lc : LikeComment) : foneroplugin.LikeComment :=
  { Token := lc.Token
    CommentID := lc.CommentID
    Action := lc.Action
    Signature := lc.Signature
    PublicKey := lc.PublicKey }

/-- convertAuthorizeVoteFromFonero. -/
def convertAuthorizeVoteFromFonero (av : foneroplugin.AuthorizeVote)
    (avr : foneroplugin.AuthorizeVoteReply) (version : Nat) : AuthorizeVote :=
  { Key := av.Token ++ avr.RecordVersion
    Token := av.Token
    Version := version
    Action := av.Action
    Signature := av.Signature
    PublicKey := av.PublicKey
    Receipt := avr.Receipt
    Timestamp := avr.Timestamp }

/-- convertAuthorizeVoteToFonero. -/
def convertAuthorizeVoteToFonero (av : AuthorizeVote) : foneroplugin.AuthorizeVote :=
  { Action := av.Action
    Token := av.Token
    Signature := av.Signature
    PublicKey := av.PublicKey
    Receipt := av.Receipt
    Timestamp := av.Timestamp }

/-- convertStartVoteFromFonero: the eligible tickets are stored as a single
comma-joined string alongside their count. -/
def convertStartVoteFromFonero (sv : foneroplugin.StartVote)
    (svr : foneroplugin.StartVoteReply) (endHeight : Nat) : StartVote :=
  { Token := sv.Vote.Token
    Mask := sv.Vote.Mask
    Duration := sv.Vote.Duration
    QuorumPercentage := sv.Vote.QuorumPercentage
    PassPercentage := sv.Vote.PassPercentage
    Options := sv.Vote.Options.map fun v =>
      { Token := sv.Vote.Token, ID := v.Id, Description := v.Description
        Bits := v.Bits }
    PublicKey := sv.PublicKey
    Signature := sv.Signature
    StartBlockHeight := svr.StartBlockHeight
    StartBlockHash := svr.StartBlockHash
    EndHeight := endHeight
    EligibleTickets := goJoinComma svr.EligibleTickets
    EligibleTicketCount := svr.EligibleTickets.length }

/-- convertStartVoteToFonero: an empty stored ticket string yields an empty
ticket list, a non-empty one is split on commas. -/
def convertStartVoteToFonero (sv : StartVote) :
    foneroplugin.StartVote × foneroplugin.StartVoteReply :=
  let opts : List foneroplugin.VoteOption := sv.Options.map fun v =>
    { Id := v.ID, Description := v.Description, Bits := v.Bits }
  let dsv : foneroplugin.StartVote :=
    { PublicKey := sv.PublicKey
      Signature := sv.Signature
      Vote :=
        { Token := sv.Token
          Mask := sv.Mask
          Duration := sv.Duration
          QuorumPercentage := sv.QuorumPercentage
          PassPercentage := sv.PassPercentage
          Options := opts } }
  let tix : List String :=
    if sv.EligibleTickets = "" then [] else goSplitComma sv.EligibleTickets
  let dsvr : foneroplugin.StartVoteReply :=
    { StartBlockHeight := sv.StartBlockHeight
      StartBlockHash := sv.StartBlockHash
      EndHeight := natToDec sv.EndHeight
      EligibleTickets := tix }
  (dsv, dsvr)

/-- convertCastVoteFromFonero. -/
def convertCastVoteFromFonero (cv : foneroplugin.CastVote) : CastVote :=
  { Token := cv.Token
    Ticket := cv.Ticket
    VoteBit := cv.VoteBit
    Signature := cv.Signature
    TokenVoteBit := cv.Token ++ cv.VoteBit }

/-- convertCastVoteToFonero. -/
def convertCastVoteToFonero (cv : CastVote) : foneroplugin.CastVote :=
  { Token := cv.Token
    Ticket := cv.Ticket
    VoteBit := cv.VoteBit
    Signature := cv.Signature }

/-- convertVoteOptionResultToFonero. -/
def convertVoteOptionResultToFonero (r : VoteOptionResult) : foneroplugin.VoteOptionResult :=
  { ID := r.Option.ID
    Description := r.Option.Description
    Bits := r.Option.Bits
    Votes := r.Votes }

/-- convertVoteOptionResultsToFonero. -/
def convertVoteOptionResultsToFonero (r : List VoteOptionResult) :
    List foneroplugin.VoteOptionResult :=
  r.map convertVoteOptionResultToFonero

end cockroachdb

namespace cockroachdb

/-- newComment: inserts a Comment row. -/
def newComment (db : Db) (c : Comment) : Db :=
  { db with comments := db.comments ++ [c] }

/-- cmdNewComment. -/
def cmdNewComment (db : Db) (cmdPayload replyPayload : Msg) : Db × Except CacheErr Msg :=
  match foneroplugin.DecodeNewComment cmdPayload with
  | .error e => (db, .error e)
  | .ok nc =>
    match foneroplugin.DecodeNewCommentReply replyPayload with
    | .error e => (db, .error e)
    | .ok ncr => (newComment db (convertNewCommentFromFonero nc ncr), .ok replyPayload)

/-- newLikeComment: inserts a LikeComment row. -/
def newLikeComment (db : Db) (lc : LikeComment) : Db :=
  { db with likeComments := db.likeComments ++ [lc] }

/-- cmdLikeComment. -/
def cmdLikeComment (db : Db) (cmdPayload replyPayload : Msg) : Db × Except CacheErr Msg :=
  match foneroplugin.DecodeLikeComment cmdPayload with
  | .error e => (db, .error e)
  | .ok dlc => (newLikeComment db (convertLikeCommentFromFonero dlc), .ok replyPayload)

/-- cmdCensorComment: clears the comment body and sets the censored flag of
every row whose composite key matches token + commentID, leaving all other
fields and rows untouched. -/
def cmdCensorComment (db : Db) (cmdPayload replyPayload : Msg) : Db × Except CacheErr Msg :=
  match foneroplugin.DecodeCensorComment cmdPayload with
  | .error e => (db, .error e)
  | .ok cc =>
    let key := cc.Token ++ cc.CommentID
    ({ db with comments := db.comments.map fun c =>
        if c.Key = key then { c with Comment := "", Censored := true } else c },
      .ok replyPayload)

/-- cmdGetComment: single-row lookup by composite key; a missing row is
mapped from the gorm not-found error to cache.ErrRecordNotFound. -/
def cmdGetComment (db : Db) (payload : Msg) : Except CacheErr Msg :=
  match foneroplugin.DecodeGetComment payload with
  | .error e => .error e
  | .ok gc =>
    match db.comments.find? fun c => decide (c.Key = gc.Token ++ gc.CommentID) with
    | none => .error .errRecordNotFound
    | some c =>
      .ok (foneroplugin.EncodeGetCommentReply { Comment := convertCommentToFonero c })

/-- cmdGetComments: all comments of a record token (a slice query, which
returns the empty list rather than an error when nothing matches). -/
def cmdGetComments (db : Db) (payload : Msg) : Except CacheErr Msg :=
  match foneroplugin.DecodeGetComments payload with
  | .error e => .error e
  | .ok gc =>
    let comments := db.comments.filter fun c => decide (c.Token = gc.Token)
    .ok (foneroplugin.EncodeGetCommentsReply
      { Comments := comments.map convertCommentToFonero })

/-- cmdCommentLikes: all like rows of one comment. -/
def cmdCommentLikes (db : Db) (payload : Msg) : Except CacheErr Msg :=
  match foneroplugin.DecodeCommentLikes payload with
  | .error e => .error e
  | .ok cl =>
    let likes := db.likeComments.filter fun v =>
      decide (v.Token = cl.Token) && decide (v.CommentID = cl.CommentID)
    .ok (foneroplugin.EncodeCommentLikesReply
      { CommentLikes := likes.map convertLikeCommentToFonero })

/-- cmdProposalCommentsLikes: all like rows of all comments of a token. -/
def cmdProposalCommentsLikes (db : Db) (payload : Msg) : Except CacheErr Msg :=
  match foneroplugin.DecodeGetProposalCommentsLikes payload with
  | .error e => .error e
  | .ok cl =>
    let likes := db.likeComments.filter fun v => decide (v.Token = cl.Token)
    .ok (foneroplugin.EncodeGetProposalCommentsLikesReply
      { CommentsLikes := likes.map convertLikeCommentToFonero })

/-- newAuthorizeVote: deletes any AuthorizeVote row with the same composite
key, then inserts the new row; the caller wraps the two steps in one
transaction, so the pair acts as a single atomic state update here. -/
def newAuthorizeVote (db : Db) (av : AuthorizeVote) : Db :=
  { db with authorizeVotes :=
      (db.authorizeVotes.filter fun r => !decide (r.Key = av.Key)) ++ [av] }

/-- cmdAuthorizeVote: decodes both payloads, parses the record version from
its decimal string, and runs the delete-then-insert inside a transaction. -/
def cmdAuthorizeVote (db : Db) (cmdPayload replyPayload : Msg) : Db × Except CacheErr Msg :=
  match foneroplugin.DecodeAuthorizeVote cmdPayload with
  | .error e => (db, .error e)
  | .ok av =>
    match foneroplugin.DecodeAuthorizeVoteReply replyPayload with
    | .error e => (db, .error e)
    | .ok avr =>
      match goParseUint avr.RecordVersion with
      | none => (db, .error (.storage "parse version"))
      | some v => (newAuthorizeVote db (convertAuthorizeVoteFromFonero av avr v),
                   .ok replyPayload)

/-- newStartVote: inserts a StartVote row. -/
def newStartVote (db : Db) (sv : StartVote) : Db :=
  { db with startVotes := db.startVotes ++ [sv] }

/-- cmdStartVote. -/
def cmdStartVote (db : Db) (cmdPayload replyPayload : Msg) : Db × Except CacheErr Msg :=
  match foneroplugin.DecodeStartVote cmdPayload with
  | .error e => (db, .error e)
  | .ok sv =>
    match foneroplugin.DecodeStartVoteReply replyPayload with
    | .error e => (db, .error e)
    | .ok svr =>
      match goParseUint svr.EndHeight with
      | none => (db, .error (.storage "parse end height"))
      | some endHeight =>
        (newStartVote db (convertStartVoteFromFonero sv svr endHeight), .ok replyPayload)

/-- The most recent version of a record: gorm query ordered by version
descending with limit one. -/
def latestRecord (db : Db) (token : String) : Option Record :=
  (db.records.filter fun r => decide (r.Token = token)).foldl
    (fun acc r =>
      match acc with
      | none => some r
      | some b => if b.Version < r.Version then some r else some b)
    none

/-- cmdVoteDetails. Note: the source returns ("", nil) when the command
payload fails to decode, discarding the decode error instead of
propagating it. Missing authorize-vote and start-vote rows are tolerated
and left as Go zero values. -/
def cmdVoteDetails (db : Db) (payload : Msg) : Except CacheErr Msg :=
  match foneroplugin.DecodeVoteDetails payload with
  | .error _ => .ok .emptyStr
  | .ok vd =>
    match latestRecord db vd.Token with
    | none => .error .errRecordNotFound
    | some r =>
      let key := vd.Token ++ natToDec r.Version
      let av := (db.authorizeVotes.find? fun a => decide (a.Key = key)).getD AuthorizeVote.zero
      let sv := (db.startVotes.find? fun s => decide (s.Token = vd.Token)).getD StartVote.zero
      let dav := convertAuthorizeVoteToFonero av
      let p := convertStartVoteToFonero sv
      .ok (foneroplugin.EncodeVoteDetailsReply
        { AuthorizeVote := dav, StartVote := p.1, StartVoteReply := p.2 })

/-- The cast-vote insertion loop of cmdNewBallot running against the
transaction: converts each plugin cast vote and appends it, stopping with
none (the rollback signal) at the first failing insert. insertFails is the
storage-failure oracle for a single row insert. -/
def insertBallotVotes (insertFails : CastVote → Bool) (tx : List CastVote) :
    List foneroplugin.CastVote → Option (List CastVote)
  | [] => some tx
  | v :: rest =>
    let cv := convertCastVoteFromFonero v
    if insertFails cv then none
    else insertBallotVotes insertFails (tx ++ [cv]) rest

/-- cmdNewBallot: all cast votes of one ballot are inserted inside a single
transaction; a failure partway rolls the whole batch back. -/
def cmdNewBallot (insertFails : CastVote → Bool) (db : Db)
    (cmdPayload replyPayload : Msg) : Db × Except CacheErr Msg :=
  match foneroplugin.DecodeBallot cmdPayload with
  | .error e => (db, .error e)
  | .ok b =>
    match insertBallotVotes insertFails db.castVotes b.Votes with
    | none => (db, .error (.storage "create cast vote"))
    | some rows => ({ db with castVotes := rows }, .ok replyPayload)

/-- cmdProposalVotes: the StartVote row (tolerating absence with the Go
zero value) and all CastVote rows of a token. -/
def cmdProposalVotes (db : Db) (payload : Msg) : Except CacheErr Msg :=
  match foneroplugin.DecodeVoteResults payload with
  | .error e => .error e
  | .ok vr =>
    let sv := (db.startVotes.find? fun s => decide (s.Token = vr.Token)).getD StartVote.zero
    let cv := db.castVotes.filter fun v => decide (v.Token = vr.Token)
    let p := convertStartVoteToFonero sv
    .ok (foneroplugin.EncodeVoteResultsReply
      { StartVote := p.1, CastVotes := cv.map convertCastVoteToFonero })

/-- cmdInventory: returns all comments (the only inventory part served). -/
def cmdInventory (db : Db) : Except CacheErr Msg :=
  .ok (foneroplugin.EncodeInventoryReply
    { Comments := db.comments.map convertCommentToFonero })

/-- The eligible-ticket universe newVoteResults computes: the number of
comma-separated segments of the stored EligibleTickets string (not the
stored EligibleTicketCount field). -/
def eligibleUniverse (sv : StartVote) : Nat :=
  (goSplitComma sv.EligibleTickets).length

/-- The quorum threshold newVoteResults computes over the eligible-ticket
universe. The Go float64 arithmetic, uint64(float64(q) / 100 * float64(e)),
is idealized as exact rational arithmetic truncated to an integer:
floor(q * e / 100). -/
def quorumOf (sv : StartVote) : Nat :=
  sv.QuorumPercentage * eligibleUniverse sv / 100

/-- The cast votes of one token, as looked up by newVoteResults. -/
def tokenVotes (db : Db) (token : String) : List CastVote :=
  db.castVotes.filter fun v => decide (v.Token = token)

/-- The tally map entry of one vote bit: the Go loop builds
tally[voteBit]++ over the cast votes, so a lookup is the count of cast
votes carrying that bit. -/
def tallyFor (cv : List CastVote) (voteBit : String) : Nat :=
  cv.countP fun v => decide (v.VoteBit = voteBit)

/-- The vote option results newVoteResults builds: one row per StartVote
option, keyed by token + hex bits, carrying that option's tally. -/
def resultsFor (db : Db) (token : String) (sv : StartVote) : List VoteOptionResult :=
  sv.Options.map fun v =>
    { Key := token ++ natToHex v.Bits
      Votes := tallyFor (tokenVotes db token) (natToHex v.Bits)
      Option := v }

/-- The vote total newVoteResults computes: the sum of the per-option
tallies (not the raw count of stored cast-vote rows). -/
def totalFor (db : Db) (token : String) (sv : StartVote) : Nat :=
  ((resultsFor db token sv).map VoteOptionResult.Votes).foldl (· + ·) 0

/-- The designated-option count newVoteResults computes: the Go loop
overwrites approvedVotes for each result whose option id is "yes", so the
last matching option wins and the count is 0 when none matches. -/
def approvedVotesFor (db : Db) (token : String) (sv : StartVote) : Nat :=
  (resultsFor db token sv).foldl
    (fun acc v => if v.Option.ID = voteOptionIDApproved then v.Votes else acc) 0

/-- The VoteResults row newVoteResults builds for a token whose StartVote
row is sv: the per-option results, and the approval switch — not approved
when the total misses the quorum threshold, not approved when the
designated-option count misses the pass threshold, approved otherwise.
The Go float64 threshold arithmetic, uint64(float64(pct) / 100 *
float64(base)), is idealized as exact rational arithmetic truncated to an
integer: pct * base / 100. -/
def voteResultsRowFor (db : Db) (token : String) (sv : StartVote) : VoteResults :=
  { Token := token
    Approved :=
      if totalFor db token sv < quorumOf sv then false
      else if approvedVotesFor db token sv <
          sv.PassPercentage * totalFor db token sv / 100 then false
      else true
    Results := resultsFor db token sv }

/-- newVoteResults: materializes the VoteResults row of one token; fails
with a wrapped storage error when the StartVote lookup finds no row. -/
def newVoteResults (db : Db) (token : String) : Except CacheErr Db :=
  match db.startVotes.find? fun sv => decide (sv.Token = token) with
  | none => .error (.storage "lookup start vote")
  | some sv =>
    .ok { db with voteResults := db.voteResults ++ [voteResultsRowFor db token sv] }

/-- The tokens with a finished voting period (end height at most the best
block) and no VoteResults row: the left-outer-join query shared by
cmdLoadVoteResults and cmdTokenInventory. -/
def missingVoteResults (db : Db) (bestBlock : Nat) : List String :=
  (db.startVotes.filter fun sv =>
      decide (sv.EndHeight ≤ bestBlock) &&
      !(db.voteResults.any fun vr => decide (vr.Token = sv.Token))).map StartVote.Token

/-- The materialization loop of cmdLoadVoteResults: each newVoteResults
call commits on its own, so rows created before a failure stay. -/
def loadTokens : Db → List String → Db × Except CacheErr Unit
  | db, [] => (db, .ok ())
  | db, t :: ts =>
    match newVoteResults db t with
    | .error _ => (db, .error (.storage "newVoteResults"))
    | .ok db' => loadTokens db' ts

/-- cmdLoadVoteResults: lazily creates vote results rows for every token
whose voting period has finished but has no row yet. -/
def cmdLoadVoteResults (db : Db) (payload : Msg) : Db × Except CacheErr Msg :=
  match foneroplugin.DecodeLoadVoteResults payload with
  | .error e => (db, .error e)
  | .ok lvs =>
    let p := loadTokens db (missingVoteResults db lvs.BestBlock)
    match p.2 with
    | .error e => (p.1, .error e)
    | .ok _ => (p.1, .ok (foneroplugin.EncodeLoadVoteResultsReply {}))

/-- Insertion step of the descending sort used to model SQL ORDER BY ...
DESC (stable on equal keys). -/
def insertDescBy {α : Type} (key : α → Int) (a : α) : List α → List α
  | [] => [a]
  | x :: xs => if key a ≤ key x then x :: insertDescBy key a xs else a :: x :: xs

/-- Descending stable sort by an integer key, modeling SQL ORDER BY DESC. -/
def sortDescBy {α : Type} (key : α → Int) : List α → List α
  | [] => []
  | x :: xs => insertDescBy key x (sortDescBy key xs)

/-- Whether a record row is the highest version stored for its token (the
b-side of the self left outer join in the pre-voting query). -/
def isLatestVersion (db : Db) (a : Record) : Bool :=
  !(db.records.any fun b => decide (b.Token = a.Token) && decide (a.Version < b.Version))

/-- Pre-voting tokens: latest-version public records with no StartVote row,
ordered by timestamp descending. -/
def preTokens (db : Db) : List String :=
  (sortDescBy Record.Timestamp (db.records.filter fun a =>
      isLatestVersion db a &&
      !(db.startVotes.any fun sv => decide (sv.Token = a.Token)) &&
      decide (a.Status = RecordStatusPublic))).map Record.Token

/-- Active-voting tokens: start votes whose end height is above the best
block, ordered by end height descending. -/
def activeTokens (db : Db) (bestBlock : Nat) : List String :=
  (sortDescBy (fun sv => (sv.EndHeight : Int)) (db.startVotes.filter fun sv =>
      decide (bestBlock < sv.EndHeight))).map StartVote.Token

/-- The inner join of vote_results with start_votes on the token. -/
def voteResultPairs (db : Db) : List (VoteResults × StartVote) :=
  db.voteResults.flatMap fun vr =>
    (db.startVotes.filter fun sv => decide (sv.Token = vr.Token)).map fun sv => (vr, sv)

/-- Approved tokens: materialized vote results with approved = true,
ordered by the joined start vote's end height descending. -/
def approvedTokens (db : Db) : List String :=
  (sortDescBy (fun p => ((p.2.EndHeight : Nat) : Int))
      ((voteResultPairs db).filter fun p => p.1.Approved)).map fun p => p.1.Token

/-- Rejected tokens: materialized vote results with approved = false. -/
def rejectedTokens (db : Db) : List String :=
  (sortDescBy (fun p => ((p.2.EndHeight : Nat) : Int))
      ((voteResultPairs db).filter fun p => !p.1.Approved)).map fun p => p.1.Token

/-- Abandoned tokens: archived records ordered by timestamp descending. -/
def abandonedTokens (db : Db) : List String :=
  (sortDescBy Record.Timestamp (db.records.filter fun r =>
      decide (r.Status = RecordStatusArchived))).map Record.Token

/-- cmdTokenInventory: refuses to run with cache.ErrRecordNotFound while
any finished vote has no VoteResults row, and otherwise returns the five
token categories. -/
def cmdTokenInventory (db : Db) (payload : Msg) : Except CacheErr Msg :=
  match foneroplugin.DecodeTokenInventory payload with
  | .error e => .error e
  | .ok ti =>
    let missing := missingVoteResults db ti.BestBlock
    if 0 < missing.length then .error .errRecordNotFound
    else
      .ok (foneroplugin.EncodeTokenInventoryReply
        { Pre := preTokens db
          Active := activeTokens db ti.BestBlock
          Approved := approvedTokens db
          Rejected := rejectedTokens db
          Abandoned := abandonedTokens db })

/-- The sendReply tail of cmdVoteSummary: end height rendered as "" rather
than "0" when no start vote exists. -/
def voteSummaryReplyOf (av : AuthorizeVote) (sv : StartVote)
    (results : List foneroplugin.VoteOptionResult) : Msg :=
  let endHeight := if sv.EndHeight ≠ 0 then natToDec sv.EndHeight else ""
  foneroplugin.EncodeVoteSummaryReply
    { Authorized := decide (av.Action = foneroplugin.AuthVoteActionAuthorize)
      EndHeight := endHeight
      EligibleTicketCount := sv.EligibleTicketCount
      QuorumPercentage := sv.QuorumPercentage
      PassPercentage := sv.PassPercentage
      Results := results }

/-- cmdVoteSummary: goto-based short-circuiting modeled as nested matches;
results come from the materialized VoteResults row when present and are
otherwise counted live from the cast votes. -/
def cmdVoteSummary (db : Db) (payload : Msg) : Except CacheErr Msg :=
  match foneroplugin.DecodeVoteSummary payload with
  | .error e => .error e
  | .ok vs =>
    match latestRecord db vs.Token with
    | none => .error .errRecordNotFound
    | some r =>
      let key := vs.Token ++ natToDec r.Version
      match db.authorizeVotes.find? fun a => decide (a.Key = key) with
      | none => .ok (voteSummaryReplyOf AuthorizeVote.zero StartVote.zero [])
      | some av =>
        match db.startVotes.find? fun s => decide (s.Token = vs.Token) with
        | none => .ok (voteSummaryReplyOf av StartVote.zero [])
        | some sv =>
          match db.voteResults.find? fun v => decide (v.Token = vs.Token) with
          | some vr =>
            .ok (voteSummaryReplyOf av sv (convertVoteOptionResultsToFonero vr.Results))
          | none =>
            let results := sv.Options.map fun v =>
              { ID := v.ID
                Description := v.Description
                Bits := v.Bits
                Votes := db.castVotes.countP fun c =>
                  decide (c.TokenVoteBit = v.Token ++ natToHex v.Bits) }
            .ok (voteSummaryReplyOf av sv results)

/-- Exec: the fonero plugin command dispatcher. Write-through commands use
both payloads and may mutate the table state; read commands use only the
command payload; an unknown command name fails with
cache.ErrInvalidPluginCmd. insertFails is the storage-failure oracle
threaded to the ballot batch insert. -/
def foneroExec (insertFails : CastVote → Bool) (db : Db) (cmd : String)
    (cmdPayload replyPayload : Msg) : Db × Except CacheErr Msg :=
  if cmd = foneroplugin.CmdAuthorizeVote then cmdAuthorizeVote db cmdPayload replyPayload
  else if cmd = foneroplugin.CmdStartVote then cmdStartVote db cmdPayload replyPayload
  else if cmd = foneroplugin.CmdVoteDetails then (db, cmdVoteDetails db cmdPayload)
  else if cmd = foneroplugin.CmdBallot then cmdNewBallot insertFails db cmdPayload replyPayload
  else if cmd = foneroplugin.CmdBestBlock then (db, .ok .emptyStr)
  else if cmd = foneroplugin.CmdNewComment then cmdNewComment db cmdPayload replyPayload
  else if cmd = foneroplugin.CmdLikeComment then cmdLikeComment db cmdPayload replyPayload
  else if cmd = foneroplugin.CmdCensorComment then cmdCensorComment db cmdPayload replyPayload
  else if cmd = foneroplugin.CmdGetComment then (db, cmdGetComment db cmdPayload)
  else if cmd = foneroplugin.CmdGetComments then (db, cmdGetComments db cmdPayload)
  else if cmd = foneroplugin.CmdProposalVotes then (db, cmdProposalVotes db cmdPayload)
  else if cmd = foneroplugin.CmdCommentLikes then (db, cmdCommentLikes db cmdPayload)
  else if cmd = foneroplugin.CmdProposalCommentsLikes then
    (db, cmdProposalCommentsLikes db cmdPayload)
  else if cmd = foneroplugin.CmdInventory then (db, cmdInventory db)
  else if cmd = foneroplugin.CmdLoadVoteResults then cmdLoadVoteResults db cmdPayload
  else if cmd = foneroplugin.CmdTokenInventory then (db, cmdTokenInventory db cmdPayload)
  else if cmd = foneroplugin.CmdVoteSummary then (db, cmdVoteSummary db cmdPayload)
  else (db, .error .errInvalidPluginCmd)

end cockroachdb

namespace cockroachdb

/-- A sequence of authorizevote commands applied through the dispatcher
handler, threading the table state. -/
def applyAuthCmds (db : Db)
    (cmds : List (foneroplugin.AuthorizeVote × foneroplugin.AuthorizeVoteReply)) : Db :=
  cmds.foldl
    (fun db c => (cmdAuthorizeVote db (Msg.authorizeVote c.1) (Msg.authorizeVoteReply c.2)).1)
    db

/-- The approval rule exactly as claim C1 states it: totalVotes is the
number of stored CastVote rows for the token, quorum =
floor(quorumPercentage/100 * eligibleTicketCount), pass =
floor(passPercentage/100 * totalVotes), and approvedOptionVotes is the
tallied count for the vote option whose id is "yes". -/
def claimC1StatedApproved (db : Db) (token : String) (sv : StartVote) : Bool :=
  let votes := db.castVotes.filter fun v => decide (v.Token = token)
  let totalVotes := votes.length
  let quorum := sv.QuorumPercentage * sv.EligibleTicketCount / 100
  let pass := sv.PassPercentage * totalVotes / 100
  let approvedOptionVotes :=
    match sv.Options.find? fun o => decide (o.ID = voteOptionIDApproved) with
    | none => 0
    | some o => votes.countP fun v => decide (v.VoteBit = natToHex o.Bits)
  decide (quorum ≤ totalVotes) && decide (pass ≤ approvedOptionVotes)

/-- The approval rule of claim C1 as amended: totalVotes counts only the
cast-vote rows of the token whose vote bit is the hexadecimal bit string
of one of the StartVote's options (the per-option tallies, rather than the
raw row count); the remaining thresholds are as the claim states them,
restricted to proposals whose stored EligibleTicketCount agrees with the
comma-segment eligible universe. -/
def claimC1AmendedApproved (db : Db) (token : String) (sv : StartVote) : Bool :=
  let votes := db.castVotes.filter fun v => decide (v.Token = token)
  let totalVotes := votes.countP fun v =>
    sv.Options.any fun o => decide (v.VoteBit = natToHex o.Bits)
  let quorum := sv.QuorumPercentage * sv.EligibleTicketCount / 100
  let pass := sv.PassPercentage * totalVotes / 100
  let approvedOptionVotes :=
    match sv.Options.find? fun o => decide (o.ID = voteOptionIDApproved) with
    | none => 0
    | some o => votes.countP fun v => decide (v.VoteBit = natToHex o.Bits)
  decide (quorum ≤ totalVotes) && decide (pass ≤ approvedOptionVotes)

/-- The yes/no option pair used by the concrete voting examples. -/
def exYesNoOptions : List VoteOption :=
  [{ Token := "t", ID := "no", Description := "reject", Bits := 1 },
   { Token := "t", ID := "yes", Description := "approve", Bits := 2 }]

/-- A stored "yes" cast vote (vote bit 2, rendered in hex). -/
def exYesVote : CastVote :=
  { Token := "t", Ticket := "e1", VoteBit := "2", Signature := "s1"
    TokenVoteBit := "t2" }

/-- A stored "no" cast vote (vote bit 1). -/
def exNoVote : CastVote :=
  { Token := "t", Ticket := "e3", VoteBit := "1", Signature := "s3"
    TokenVoteBit := "t1" }

/-- A stored cast vote whose vote bit 5 matches no option of the vote. -/
def exJunkVote : CastVote :=
  { Token := "t", Ticket := "e2", VoteBit := "5", Signature := "s2"
    TokenVoteBit := "t5" }

/-- StartVote row of the C1 counterexample: five eligible tickets, forty
percent quorum, fifty percent pass. -/
def cexC1StartVote : StartVote :=
  { Token := "t", Mask := 3, Duration := 2016, QuorumPercentage := 40
    PassPercentage := 50, Options := exYesNoOptions, PublicKey := "pk"
    Signature := "sig", StartBlockHeight := "100", StartBlockHash := "hash"
    EndHeight := 5, EligibleTickets := "e1,e2,e3,e4,e5"
    EligibleTicketCount := 5 }

/-- Database of the C1 counterexample: one yes vote and one junk-bit vote
for an ended vote with quorum threshold two. -/
def cexC1Db : Db :=
  { Db.empty with
    startVotes := [cexC1StartVote]
    castVotes := [exYesVote, exJunkVote] }

/-- StartVote row of the concrete quorum/pass example of claim C1: one
hundred eligible tickets, twenty percent quorum, sixty percent pass. -/
def exC1StartVote : StartVote :=
  { Token := "t", Mask := 3, Duration := 2016, QuorumPercentage := 20
    PassPercentage := 60, Options := exYesNoOptions, PublicKey := "pk"
    Signature := "sig", StartBlockHeight := "100", StartBlockHash := "hash"
    EndHeight := 5, EligibleTickets := goJoinComma (List.replicate 100 "e")
    EligibleTicketCount := 100 }

/-- First C1 example database: twenty yes votes and ten no votes. -/
def exC1DbA : Db :=
  { Db.empty with
    startVotes := [exC1StartVote]
    castVotes := List.replicate 20 exYesVote ++ List.replicate 10 exNoVote }

/-- Second C1 example database: ten yes votes and five no votes. -/
def exC1DbB : Db :=
  { Db.empty with
    startVotes := [exC1StartVote]
    castVotes := List.replicate 10 exYesVote ++ List.replicate 5 exNoVote }

/-- An ended StartVote row used by the C3 and C4 examples. -/
def exSVEnded : StartVote :=
  { Token := "a", Mask := 3, Duration := 10, QuorumPercentage := 20
    PassPercentage := 60, Options := exYesNoOptions, PublicKey := "pk"
    Signature := "sig", StartBlockHeight := "1", StartBlockHash := "h"
    EndHeight := 5, EligibleTickets := "x,y", EligibleTicketCount := 2 }

/-- Database of the C3 and C4 examples: one ended vote, no results row. -/
def exDbEnded : Db :=
  { Db.empty with startVotes := [exSVEnded] }

/-- An authorize command and its reply, for the C2 example. -/
def exAV1 : foneroplugin.AuthorizeVote :=
  { Action := "authorize", Token := "a", Signature := "s1", PublicKey := "pk"
    Receipt := "", Timestamp := 0 }

/-- Reply of the C2 authorize command. -/
def exAVR1 : foneroplugin.AuthorizeVoteReply :=
  { RecordVersion := "1", Receipt := "r1", Timestamp := 10 }

/-- A revoke command for the same record version, for the C2 example. -/
def exAV2 : foneroplugin.AuthorizeVote :=
  { Action := "revoke", Token := "a", Signature := "s2", PublicKey := "pk"
    Receipt := "", Timestamp := 0 }

/-- Reply of the C2 revoke command. -/
def exAVR2 : foneroplugin.AuthorizeVoteReply :=
  { RecordVersion := "1", Receipt := "r2", Timestamp := 20 }

/-- The C2 example sequence: authorize then revoke on (token a, version 1). -/
def exAuthCmds : List (foneroplugin.AuthorizeVote × foneroplugin.AuthorizeVoteReply) :=
  [(exAV1, exAVR1), (exAV2, exAVR2)]

/-- The C5 example ballot: three cast votes for the same token. -/
def exBallot : foneroplugin.Ballot :=
  { Votes :=
      [{ Token := "a", Ticket := "t1", VoteBit := "1", Signature := "s1" },
       { Token := "a", Ticket := "t2", VoteBit := "1", Signature := "s2" },
       { Token := "a", Ticket := "t3", VoteBit := "1", Signature := "s3" }] }

/-- A storage-failure oracle that rejects the insert of the middle vote of
the C5 example ballot. -/
def exFailMiddle : CastVote → Bool := fun cv => decide (cv.Ticket = "t2")

/-- The C6 example comment row (token ab, comment id 1). -/
def exComment : Comment :=
  { Key := "ab1", Token := "ab", ParentID := "", Comment := "hello"
    Signature := "s", PublicKey := "pk", CommentID := "1", Receipt := "r"
    Timestamp := 42, Censored := false }

/-- Database of the C6 example. -/
def exC6Db : Db :=
  { Db.empty with comments := [exComment] }

/-- The C9 and C10 example plugin StartVote. -/
def exPluginSV : foneroplugin.StartVote :=
  { PublicKey := "pk", Signature := "sig"
    Vote :=
      { Token := "a", Mask := 3, Duration := 7, QuorumPercentage := 20
        PassPercentage := 60
        Options :=
          [{ Id := "no", Description := "reject", Bits := 1 },
           { Id := "yes", Description := "approve", Bits := 2 }] } }

/-- The C9 and C10 example reply with two comma-free tickets. -/
def exSVR2 : foneroplugin.StartVoteReply :=
  { StartBlockHeight := "10", StartBlockHash := "h", EndHeight := "20"
    EligibleTickets := ["t1", "t2"] }

/-- The C9 example reply with an empty eligible-ticket list. -/
def exSVR0 : foneroplugin.StartVoteReply :=
  { StartBlockHeight := "10", StartBlockHash := "h", EndHeight := "20"
    EligibleTickets := [] }

end cockroachdb

/-! Basic lemmas about the Go string helpers. -/

theorem splitCommaChars_of_no_comma : ∀ t : List Char, ',' ∉ t → splitCommaChars t = [t]
  | [], _ => rfl
  | c :: rest, h => by
    have hc : ¬(c = ',') := fun e => h (by simp [e])
    have ih := splitCommaChars_of_no_comma rest (fun m => h (List.mem_cons_of_mem _ m))
    simp [splitCommaChars, hc, ih]

theorem splitCommaChars_append : ∀ (t l : List Char), ',' ∉ t →
    splitCommaChars (t ++ ',' :: l) = t :: splitCommaChars l
  | [], l, _ => by simp [splitCommaChars]
  | c :: t, l, h => by
    have hc : ¬(c = ',') := fun e => h (by simp [e])
    have ih := splitCommaChars_append t l (fun m => h (List.mem_cons_of_mem _ m))
    simp [List.cons_append, splitCommaChars, hc, ih]

theorem splitCommaChars_joinCommaChars : ∀ ts : List (List Char), ts ≠ [] →
    (∀ t ∈ ts, ',' ∉ t) → splitCommaChars (joinCommaChars ts) = ts
  | [], hne, _ => absurd rfl hne
  | [t], _, h => by
    show splitCommaChars t = [t]
    exact splitCommaChars_of_no_comma t (h t (by simp))
  | t :: t' :: ts, _, h => by
    have ih := splitCommaChars_joinCommaChars (t' :: ts) (by simp)
      (fun a ha => h a (List.mem_cons_of_mem _ ha))
    show splitCommaChars (t ++ ',' :: joinCommaChars (t' :: ts)) = t :: t' :: ts
    rw [splitCommaChars_append t _ (h t (by simp)), ih]

theorem goSplitComma_goJoinComma (ts : List String) (hne : ts ≠ [])
    (h : ∀ t ∈ ts, ',' ∉ t.data) : goSplitComma (goJoinComma ts) = ts := by
  show ((splitCommaChars (joinCommaChars (ts.map String.data))).map String.mk) = ts
  rw [splitCommaChars_joinCommaChars (ts.map String.data)
    (by simpa using hne)
    (by
      intro t ht
      obtain ⟨s, hs, rfl⟩ := List.mem_map.mp ht
      exact h s hs)]
  rw [List.map_map]
  have he : (String.mk ∘ String.data) = id := funext fun s => rfl
  rw [he, List.map_id]

theorem goJoinComma_ne_empty : ∀ ts : List String, ts ≠ [] → (∀ t ∈ ts, t ≠ "") →
    goJoinComma ts ≠ ""
  | [], hne, _ => absurd rfl hne
  | [t], _, h => by
    show String.mk (joinCommaChars [t.data]) ≠ ""
    have : String.mk t.data = t := rfl
    simpa [joinCommaChars, this] using h t (by simp)
  | t :: t' :: ts, _, h => by
    show String.mk (t.data ++ ',' :: joinCommaChars ((t' :: ts).map String.data)) ≠ ""
    intro heq
    have hd := congrArg String.data heq
    simp at hd

namespace cockroachdb

/-- C9: in newVoteResults the eligible-ticket universe used for the quorum
computation is the number of comma-separated segments of the stored
EligibleTickets string, not the stored EligibleTicketCount field: for a
StartVote stored from a non-empty list of comma-free tickets both equal
the number of tickets, but for one stored from an empty ticket list the
universe is 1 while EligibleTicketCount is 0, so the quorum threshold is
computed over an eligible universe of one rather than zero. -/
theorem claimC9_eligible_universe (sv : foneroplugin.StartVote)
    (svr : foneroplugin.StartVoteReply) (h : Nat) :
    ((svr.EligibleTickets ≠ [] ∧ ∀ t ∈ svr.EligibleTickets, ',' ∉ t.data) →
      eligibleUniverse (convertStartVoteFromFonero sv svr h) = svr.EligibleTickets.length ∧
      (convertStartVoteFromFonero sv svr h).EligibleTicketCount = svr.EligibleTickets.length) ∧
    (svr.EligibleTickets = [] →
      eligibleUniverse (convertStartVoteFromFonero sv svr h) = 1 ∧
      (convertStartVoteFromFonero sv svr h).EligibleTicketCount = 0 ∧
      quorumOf (convertStartVoteFromFonero sv svr h) =
        sv.Vote.QuorumPercentage * 1 / 100) := by
  constructor
  · rintro ⟨hne, hc⟩
    constructor
    · show (goSplitComma (goJoinComma svr.EligibleTickets)).length = _
      rw [goSplitComma_goJoinComma svr.EligibleTickets hne hc]
    · rfl
  · intro hnil
    refine ⟨?_, ?_, ?_⟩
    · show (goSplitComma (goJoinComma svr.EligibleTickets)).length = 1
      rw [hnil]
      rfl
    · show svr.EligibleTickets.length = 0
      rw [hnil]
      rfl
    · show (convertStartVoteFromFonero sv svr h).QuorumPercentage *
        eligibleUniverse (convertStartVoteFromFonero sv svr h) / 100 = _
      have h1 : eligibleUniverse (convertStartVoteFromFonero sv svr h) = 1 := by
        show (goSplitComma (goJoinComma svr.EligibleTickets)).length = 1
        rw [hnil]
        rfl
      rw [h1]
      rfl

/-- Witness for C9 at two concrete start votes: one stored from the ticket
list [t1, t2], one stored from the empty ticket list. -/
theorem claimC9_eligible_universe_witness :
    (eligibleUniverse (convertStartVoteFromFonero exPluginSV exSVR2 15) = 2 ∧
      (convertStartVoteFromFonero exPluginSV exSVR2 15).EligibleTicketCount = 2) ∧
    (eligibleUniverse (convertStartVoteFromFonero exPluginSV exSVR0 15) = 1 ∧
      (convertStartVoteFromFonero exPluginSV exSVR0 15).EligibleTicketCount = 0 ∧
      quorumOf (convertStartVoteFromFonero exPluginSV exSVR0 15) = 20 * 1 / 100) :=
  ⟨(claimC9_eligible_universe exPluginSV exSVR2 15).1 ⟨by decide, by decide⟩,
   (claimC9_eligible_universe exPluginSV exSVR0 15).2 rfl⟩

/-- C10: convertStartVoteToFonero is a left inverse of
convertStartVoteFromFonero on the stored fields: when every eligible
ticket is a non-empty comma-free string (the empty ticket list included),
converting to the cache row and back recovers the plugin StartVote whole
(public key, signature, and every field of its Vote) and recovers the
reply's start block height, start block hash, ticket list, and the end
height as the decimal rendering of the stored height. -/
theorem voteOptionsRoundtrip (tok : String) :
    ∀ opts : List foneroplugin.VoteOption,
      opts.map
        ((fun v => ({ Id := v.ID, Description := v.Description, Bits := v.Bits } :
            foneroplugin.VoteOption)) ∘
          (fun v =>
            ({ Token := tok
               ID := v.Id
               Description := v.Description
               Bits := v.Bits } : VoteOption))) = opts
  | [] => rfl
  | o :: os => by
    cases o
    simp [voteOptionsRoundtrip tok os, Function.comp]

theorem claimC10_startvote_roundtrip (sv : foneroplugin.StartVote)
    (svr : foneroplugin.StartVoteReply) (h : Nat)
    (ht : ∀ t ∈ svr.EligibleTickets, t ≠ "" ∧ ',' ∉ t.data) :
    convertStartVoteToFonero (convertStartVoteFromFonero sv svr h) =
      (sv,
        { StartBlockHeight := svr.StartBlockHeight
          StartBlockHash := svr.StartBlockHash
          EndHeight := natToDec h
          EligibleTickets := svr.EligibleTickets }) := by
  have h1 : (convertStartVoteToFonero (convertStartVoteFromFonero sv svr h)).1 = sv := by
    obtain ⟨pk, sig, tok, mask, dur, qp, pp, opts⟩ := sv
    simp only [convertStartVoteFromFonero, convertStartVoteToFonero,
      foneroplugin.StartVote.mk.injEq, foneroplugin.Vote.mk.injEq, List.map_map,
      true_and, and_true]
    exact voteOptionsRoundtrip tok opts
  have h2 : (convertStartVoteToFonero (convertStartVoteFromFonero sv svr h)).2 =
      { StartBlockHeight := svr.StartBlockHeight
        StartBlockHash := svr.StartBlockHash
        EndHeight := natToDec h
        EligibleTickets := svr.EligibleTickets } := by
    simp only [convertStartVoteFromFonero, convertStartVoteToFonero,
      foneroplugin.StartVoteReply.mk.injEq, true_and]
    cases htix : svr.EligibleTickets with
    | nil => rfl
    | cons t ts =>
      have hmem : ∀ a ∈ t :: ts, a ≠ "" ∧ ',' ∉ a.data := by
        rw [← htix]
        exact ht
      have hne : goJoinComma (t :: ts) ≠ "" :=
        goJoinComma_ne_empty (t :: ts) (by simp) (fun a ha => (hmem a ha).1)
      show (if goJoinComma (t :: ts) = "" then []
        else goSplitComma (goJoinComma (t :: ts))) = t :: ts
      rw [if_neg hne]
      exact goSplitComma_goJoinComma (t :: ts) (by simp) (fun a ha => (hmem a ha).2)
  calc convertStartVoteToFonero (convertStartVoteFromFonero sv svr h)
      = ((convertStartVoteToFonero (convertStartVoteFromFonero sv svr h)).1,
         (convertStartVoteToFonero (convertStartVoteFromFonero sv svr h)).2) := rfl
    _ = _ := by rw [h1, h2]

/-- Witness for C10 at a concrete start vote with two tickets. -/
theorem claimC10_startvote_roundtrip_witness :
    convertStartVoteToFonero (convertStartVoteFromFonero exPluginSV exSVR2 15) =
      (exPluginSV,
        { StartBlockHeight := "10", StartBlockHash := "h", EndHeight := "15"
          EligibleTickets := ["t1", "t2"] }) :=
  claimC10_startvote_roundtrip exPluginSV exSVR2 15 (by decide)

/-- C7 (code-bug evidence): Exec routed to votedetails with a command
payload that fails to decode returns the empty reply and no error — the
handler discards the decode error instead of propagating it as every other
handler does. -/
theorem claimC7_votedetails_swallows_decode_error :
    foneroExec (fun _ => false) Db.empty foneroplugin.CmdVoteDetails Msg.malformed
      Msg.emptyStr = (Db.empty, Except.ok Msg.emptyStr) := rfl

end cockroachdb

namespace cockroachdb

/-- C8: each read-only collection query — getcomments, commentlikes,
proposalcommentslikes, and proposalvotes — given a well-formed payload
whose token (and comment id, where applicable) matches no stored rows,
returns a successfully encoded reply holding an empty collection, never an
error. -/
theorem claimC8_empty_collections (db : Db) (t cid : String) :
    ((db.comments.filter fun c => decide (c.Token = t)) = [] →
      cmdGetComments db (Msg.getComments ⟨t⟩) =
        Except.ok (Msg.getCommentsReply ⟨[]⟩)) ∧
    ((db.likeComments.filter fun v =>
        decide (v.Token = t) && decide (v.CommentID = cid)) = [] →
      cmdCommentLikes db (Msg.commentLikes ⟨t, cid⟩) =
        Except.ok (Msg.commentLikesReply ⟨[]⟩)) ∧
    ((db.likeComments.filter fun v => decide (v.Token = t)) = [] →
      cmdProposalCommentsLikes db (Msg.proposalCommentsLikes ⟨t⟩) =
        Except.ok (Msg.proposalCommentsLikesReply ⟨[]⟩)) ∧
    ((db.startVotes.find? fun s => decide (s.Token = t)) = none →
      (db.castVotes.filter fun v => decide (v.Token = t)) = [] →
      cmdProposalVotes db (Msg.voteResults ⟨t⟩) =
        Except.ok (Msg.voteResultsReply
          ⟨(convertStartVoteToFonero StartVote.zero).1, []⟩)) := by
  refine ⟨?_, ?_, ?_, ?_⟩
  · intro h
    simp [cmdGetComments, foneroplugin.DecodeGetComments, h,
      foneroplugin.EncodeGetCommentsReply]
  · intro h
    simp [cmdCommentLikes, foneroplugin.DecodeCommentLikes, h,
      foneroplugin.EncodeCommentLikesReply]
  · intro h
    simp [cmdProposalCommentsLikes, foneroplugin.DecodeGetProposalCommentsLikes, h,
      foneroplugin.EncodeGetProposalCommentsLikesReply]
  · intro hsv hcv
    simp [cmdProposalVotes, foneroplugin.DecodeVoteResults, hsv, hcv,
      foneroplugin.EncodeVoteResultsReply]

/-- Witness for C8 on the empty cache with token a and comment id 1. -/
theorem claimC8_empty_collections_witness :
    cmdGetComments Db.empty (Msg.getComments ⟨"a"⟩) =
      Except.ok (Msg.getCommentsReply ⟨[]⟩) ∧
    cmdCommentLikes Db.empty (Msg.commentLikes ⟨"a", "1"⟩) =
      Except.ok (Msg.commentLikesReply ⟨[]⟩) ∧
    cmdProposalCommentsLikes Db.empty (Msg.proposalCommentsLikes ⟨"a"⟩) =
      Except.ok (Msg.proposalCommentsLikesReply ⟨[]⟩) ∧
    cmdProposalVotes Db.empty (Msg.voteResults ⟨"a"⟩) =
      Except.ok (Msg.voteResultsReply
        ⟨(convertStartVoteToFonero StartVote.zero).1, []⟩) :=
  ⟨(claimC8_empty_collections Db.empty "a" "1").1 rfl,
   (claimC8_empty_collections Db.empty "a" "1").2.1 rfl,
   (claimC8_empty_collections Db.empty "a" "1").2.2.1 rfl,
   (claimC8_empty_collections Db.empty "a" "1").2.2.2 rfl rfl⟩

/-- The censored image of a comment row: body cleared, censored flag set,
every other field untouched. -/
def censoredRow (c : Comment) : Comment :=
  { c with Comment := "", Censored := true }

theorem find_censored_row (key : String) (c : Comment) :
    ∀ l : List Comment, (l.map Comment.Key).Nodup → c ∈ l → c.Key = key →
      ((l.map fun x => if x.Key = key then censoredRow x else x).find? fun x =>
          decide (x.Key = key)) = some (censoredRow c)
  | [], _, hmem, _ => absurd hmem (List.not_mem_nil c)
  | a :: l, hnodup, hmem, hkey => by
    rw [List.map_cons, List.nodup_cons] at hnodup
    obtain ⟨hna, hnl⟩ := hnodup
    rcases List.mem_cons.mp hmem with rfl | hml
    · rw [List.map_cons, if_pos hkey, List.find?_cons_of_pos]
      show decide ((censoredRow c).Key = key) = true
      have : (censoredRow c).Key = c.Key := rfl
      rw [this, hkey]
      simp
    · have hak : ¬(a.Key = key) := by
        intro e
        exact hna (List.mem_map.mpr ⟨c, hml, hkey.trans e.symm⟩)
      rw [List.map_cons, if_neg hak, List.find?_cons_of_neg]
      · exact find_censored_row key c l hnl hml hkey
      · simp [hak]

/-- C6: censoring an existing comment clears its body and sets its
censored flag while leaving every other field of the row unchanged, and
the row stays retrievable: a subsequent getcomment for the same
(token, commentID) succeeds and returns the row with body empty and
censored true. -/
theorem claimC6_censor_keeps_row (db : Db) (cc : foneroplugin.CensorComment)
    (c : Comment) (rp : Msg)
    (hmem : c ∈ db.comments)
    (hkey : c.Key = cc.Token ++ cc.CommentID)
    (hnodup : (db.comments.map Comment.Key).Nodup) :
    (cmdCensorComment db (Msg.censorComment cc) rp).2 = Except.ok rp ∧
    censoredRow c ∈ (cmdCensorComment db (Msg.censorComment cc) rp).1.comments ∧
    cmdGetComment (cmdCensorComment db (Msg.censorComment cc) rp).1
        (Msg.getComment ⟨cc.Token, cc.CommentID⟩) =
      Except.ok (Msg.getCommentReply ⟨convertCommentToFonero (censoredRow c)⟩) ∧
    (convertCommentToFonero (censoredRow c)).Comment = "" ∧
    (convertCommentToFonero (censoredRow c)).Censored = true := by
  have hdb : cmdCensorComment db (Msg.censorComment cc) rp =
      ({ db with comments := db.comments.map fun x =>
          if x.Key = cc.Token ++ cc.CommentID then censoredRow x else x },
        Except.ok rp) := by
    simp [cmdCensorComment, foneroplugin.DecodeCensorComment, censoredRow]
  refine ⟨by rw [hdb], ?_, ?_, rfl, rfl⟩
  · rw [hdb]
    have himg : censoredRow c =
        (fun x => if x.Key = cc.Token ++ cc.CommentID then censoredRow x else x) c := by
      simp [hkey]
    rw [himg]
    exact List.mem_map_of_mem _ hmem
  · rw [hdb]
    simp only [cmdGetComment, foneroplugin.DecodeGetComment]
    rw [find_censored_row (cc.Token ++ cc.CommentID) c db.comments hnodup hmem hkey]
    rfl

/-- Witness for C6: a concrete comment (token ab, id 1) is censored and
then fetched back. -/
theorem claimC6_censor_keeps_row_witness :
    (cmdCensorComment exC6Db (Msg.censorComment ⟨"ab", "1"⟩) Msg.emptyStr).2 =
      Except.ok Msg.emptyStr ∧
    censoredRow exComment ∈
      (cmdCensorComment exC6Db (Msg.censorComment ⟨"ab", "1"⟩) Msg.emptyStr).1.comments ∧
    cmdGetComment (cmdCensorComment exC6Db (Msg.censorComment ⟨"ab", "1"⟩) Msg.emptyStr).1
        (Msg.getComment ⟨"ab", "1"⟩) =
      Except.ok (Msg.getCommentReply ⟨convertCommentToFonero (censoredRow exComment)⟩) ∧
    (convertCommentToFonero (censoredRow exComment)).Comment = "" ∧
    (convertCommentToFonero (censoredRow exComment)).Censored = true :=
  claimC6_censor_keeps_row exC6Db ⟨"ab", "1"⟩ exComment Msg.emptyStr
    (by simp [exC6Db, Db.empty]) (by decide) (by decide)

end cockroachdb

namespace cockroachdb

theorem insertBallotVotes_none (fails : CastVote → Bool) :
    ∀ (votes : List foneroplugin.CastVote) (tx : List CastVote),
      (∃ v ∈ votes, fails (convertCastVoteFromFonero v) = true) →
      insertBallotVotes fails tx votes = none
  | [], tx, h => by simp at h
  | v :: vs, tx, h => by
    cases hv : fails (convertCastVoteFromFonero v) with
    | true => simp [insertBallotVotes, hv]
    | false =>
      have hrest : ∃ w ∈ vs, fails (convertCastVoteFromFonero w) = true := by
        rcases h with ⟨w, hw, hfw⟩
        rcases List.mem_cons.mp hw with rfl | hwvs
        · rw [hv] at hfw
          exact absurd hfw (by simp)
        · exact ⟨w, hwvs, hfw⟩
      simp only [insertBallotVotes, hv]
      exact insertBallotVotes_none fails vs
        (tx ++ [convertCastVoteFromFonero v]) hrest

theorem insertBallotVotes_some (fails : CastVote → Bool) :
    ∀ (votes : List foneroplugin.CastVote) (tx : List CastVote),
      (∀ v ∈ votes, fails (convertCastVoteFromFonero v) = false) →
      insertBallotVotes fails tx votes =
        some (tx ++ votes.map convertCastVoteFromFonero)
  | [], tx, _ => by simp [insertBallotVotes]
  | v :: vs, tx, h => by
    have hv := h v (by simp)
    simp only [insertBallotVotes, hv]
    rw [insertBallotVotes_some fails vs (tx ++ [convertCastVoteFromFonero v])
      (fun w hw => h w (by simp [hw]))]
    simp

/-- C5: cmdNewBallot inserts the whole ballot inside one transaction: if
the insert of any vote of the batch fails, an error is returned and the
state is unchanged (zero rows of the batch persisted); if none fails, all
rows are appended and the reply payload is returned unchanged. -/
theorem claimC5_ballot_atomicity (fails : CastVote → Bool) (db : Db)
    (b : foneroplugin.Ballot) (rp : Msg) :
    ((∃ v ∈ b.Votes, fails (convertCastVoteFromFonero v) = true) →
      cmdNewBallot fails db (Msg.ballot b) rp =
        (db, Except.error (CacheErr.storage "create cast vote"))) ∧
    ((∀ v ∈ b.Votes, fails (convertCastVoteFromFonero v) = false) →
      cmdNewBallot fails db (Msg.ballot b) rp =
        ({ db with castVotes := db.castVotes ++ b.Votes.map convertCastVoteFromFonero },
          Except.ok rp)) := by
  constructor
  · intro h
    simp [cmdNewBallot, foneroplugin.DecodeBallot,
      insertBallotVotes_none fails b.Votes db.castVotes h]
  · intro h
    simp [cmdNewBallot, foneroplugin.DecodeBallot,
      insertBallotVotes_some fails b.Votes db.castVotes h]

/-- Witness for C5: the three-vote example ballot with the middle insert
forced to fail persists nothing; with no failure all three rows persist. -/
theorem claimC5_ballot_atomicity_witness :
    cmdNewBallot exFailMiddle Db.empty (Msg.ballot exBallot) Msg.emptyStr =
      (Db.empty, Except.error (CacheErr.storage "create cast vote")) ∧
    cmdNewBallot (fun _ => false) Db.empty (Msg.ballot exBallot) Msg.emptyStr =
      ({ Db.empty with castVotes := exBallot.Votes.map convertCastVoteFromFonero },
        Except.ok Msg.emptyStr) :=
  ⟨(claimC5_ballot_atomicity exFailMiddle Db.empty exBallot Msg.emptyStr).1
      ⟨{ Token := "a", Ticket := "t2", VoteBit := "1", Signature := "s2" },
        by decide, by decide⟩,
   (claimC5_ballot_atomicity (fun _ => false) Db.empty exBallot Msg.emptyStr).2
      (fun v hv => rfl)⟩

theorem authorizeStep_filter (db : Db) (av : foneroplugin.AuthorizeVote)
    (avr : foneroplugin.AuthorizeVoteReply) (t v : String) (n : Nat)
    (hT : av.Token = t) (hV : avr.RecordVersion = v) (hv : goParseUint v = some n) :
    ((cmdAuthorizeVote db (Msg.authorizeVote av)
        (Msg.authorizeVoteReply avr)).1.authorizeVotes.filter fun r =>
          decide (r.Key = t ++ v)) =
      [convertAuthorizeVoteFromFonero av avr n] := by
  have hparse : goParseUint avr.RecordVersion = some n := by rw [hV]; exact hv
  have hkey : (convertAuthorizeVoteFromFonero av avr n).Key = t ++ v := by
    show av.Token ++ avr.RecordVersion = t ++ v
    rw [hT, hV]
  simp only [cmdAuthorizeVote, foneroplugin.DecodeAuthorizeVote,
    foneroplugin.DecodeAuthorizeVoteReply, hparse, newAuthorizeVote]
  rw [List.filter_append, List.filter_filter]
  have h1 : (db.authorizeVotes.filter fun r =>
      decide (r.Key = t ++ v) && !decide (r.Key = (convertAuthorizeVoteFromFonero av avr n).Key)) = [] := by
    apply List.filter_eq_nil_iff.mpr
    intro r _
    rw [hkey]
    simp
  rw [h1]
  simp [hkey]

/-- C2: after any non-empty sequence of authorizevote commands (authorize
or revoke) against the same (token, record version), exactly one
AuthorizeVote row exists for that composite key, and it carries the
action, signature, receipt and timestamp of the most recent command; each
command's delete-then-insert pair is one atomic state update (the source
runs it inside a single transaction). -/
theorem claimC2_single_authorize_row : ∀ (db : Db)
    (cmds : List (foneroplugin.AuthorizeVote × foneroplugin.AuthorizeVoteReply))
    (t v : String) (n : Nat), cmds ≠ [] →
    (∀ c ∈ cmds, c.1.Token = t ∧ c.2.RecordVersion = v) →
    goParseUint v = some n →
    ∃ lc, cmds.getLast? = some lc ∧
      ((applyAuthCmds db cmds).authorizeVotes.filter fun r =>
          decide (r.Key = t ++ v)) =
        [convertAuthorizeVoteFromFonero lc.1 lc.2 n] ∧
      ((applyAuthCmds db cmds).authorizeVotes.filter fun r =>
          decide (r.Key = t ++ v)).length = 1
  | db, [], t, v, n, hne, _, _ => absurd rfl hne
  | db, [c], t, v, n, _, hall, hv => by
    have hc := hall c (by simp)
    have hfilter := authorizeStep_filter db c.1 c.2 t v n hc.1 hc.2 hv
    have happ : applyAuthCmds db [c] =
        (cmdAuthorizeVote db (Msg.authorizeVote c.1) (Msg.authorizeVoteReply c.2)).1 := rfl
    exact ⟨c, rfl, by rw [happ]; exact hfilter, by rw [happ, hfilter]; rfl⟩
  | db, c :: c' :: cs, t, v, n, _, hall, hv => by
    have ih := claimC2_single_authorize_row
      (cmdAuthorizeVote db (Msg.authorizeVote c.1) (Msg.authorizeVoteReply c.2)).1
      (c' :: cs) t v n (by simp)
      (fun x hx => hall x (List.mem_cons_of_mem _ hx)) hv
    obtain ⟨lc, hlast, hfilter, hlen⟩ := ih
    refine ⟨lc, ?_, ?_, ?_⟩
    · rw [List.getLast?_cons_cons]
      exact hlast
    · exact hfilter
    · exact hlen

/-- Witness for C2: authorize then revoke on (token a, version 1) leaves
exactly the revoke row. -/
theorem claimC2_single_authorize_row_witness :
    ((applyAuthCmds Db.empty exAuthCmds).authorizeVotes.filter fun r =>
        decide (r.Key = "a" ++ "1")) =
      [convertAuthorizeVoteFromFonero exAV2 exAVR2 1] ∧
    ((applyAuthCmds Db.empty exAuthCmds).authorizeVotes.filter fun r =>
        decide (r.Key = "a" ++ "1")).length = 1 := by
  obtain ⟨lc, hlast, hfilter, hlen⟩ := claimC2_single_authorize_row Db.empty exAuthCmds
    "a" "1" 1 (by decide) (by decide) (by decide)
  have hlc : lc = (exAV2, exAVR2) := by
    have h0 : some lc = some (exAV2, exAVR2) := by
      rw [← hlast]
      rfl
    exact Option.some.inj h0
  rw [hlc] at hfilter
  exact ⟨hfilter, hlen⟩

end cockroachdb

namespace cockroachdb

theorem countP_le_one_of_nodup_map {α β : Type} [DecidableEq β] (f : α → β) (y : β) :
    ∀ l : List α, (l.map f).Nodup → (l.countP fun a => decide (f a = y)) ≤ 1
  | [], _ => by simp
  | x :: xs, h => by
    rw [List.map_cons, List.nodup_cons] at h
    obtain ⟨hx, hxs⟩ := h
    rw [List.countP_cons]
    by_cases hfx : f x = y
    · have hz : (xs.countP fun a => decide (f a = y)) = 0 := by
        rw [List.countP_eq_zero]
        intro a ha hay
        rw [decide_eq_true_eq] at hay
        exact hx (List.mem_map.mpr ⟨a, ha, hay.trans hfx.symm⟩)
      simp [hz, hfx]
    · have hle := countP_le_one_of_nodup_map f y xs hxs
      simp [hfx]
      omega

theorem newVoteResults_ok (db : Db) (tok : String) (sv : StartVote)
    (h : (db.startVotes.find? fun s => decide (s.Token = tok)) = some sv) :
    newVoteResults db tok =
      Except.ok { db with voteResults := db.voteResults ++ [voteResultsRowFor db tok sv] } := by
  simp [newVoteResults, h]

theorem find?_token_some (l : List StartVote) (tok : String)
    (h : ∃ sv ∈ l, sv.Token = tok) :
    ∃ sv, (l.find? fun s => decide (s.Token = tok)) = some sv := by
  have hs : (l.find? fun s => decide (s.Token = tok)).isSome := by
    rw [List.find?_isSome]
    rcases h with ⟨sv, hm, ht⟩
    exact ⟨sv, hm, by simp [ht]⟩
  exact Option.isSome_iff_exists.mp hs

theorem loadTokens_spec (x : String) : ∀ (ts : List String) (db : Db),
    (∀ t ∈ ts, ∃ sv ∈ db.startVotes, sv.Token = t) →
    (loadTokens db ts).2 = Except.ok () ∧
    (loadTokens db ts).1.startVotes = db.startVotes ∧
    ((loadTokens db ts).1.voteResults.countP fun vr => decide (vr.Token = x)) =
      (db.voteResults.countP fun vr => decide (vr.Token = x)) +
        (ts.countP fun t => decide (t = x))
  | [], db, _ => by simp [loadTokens]
  | t :: ts, db, h => by
    obtain ⟨sv, hfind⟩ := find?_token_some db.startVotes t (h t (by simp))
    have hnew := newVoteResults_ok db t sv hfind
    have hstep : loadTokens db (t :: ts) =
        loadTokens { db with voteResults :=
          db.voteResults ++ [voteResultsRowFor db t sv] } ts := by
      simp [loadTokens, hnew]
    obtain ⟨hok, hsv, hcount⟩ := loadTokens_spec x ts
      { db with voteResults := db.voteResults ++ [voteResultsRowFor db t sv] }
      (fun w hw => h w (List.mem_cons_of_mem _ hw))
    refine ⟨?_, ?_, ?_⟩
    · rw [hstep]
      exact hok
    · rw [hstep]
      exact hsv
    · rw [hstep, hcount]
      have hrow : (voteResultsRowFor db t sv).Token = t := rfl
      rw [List.countP_append, List.countP_cons, List.countP_cons]
      simp only [List.countP_nil, hrow]
      omega

theorem mem_missingVoteResults (db : Db) (bb : Nat) (x : String) :
    x ∈ missingVoteResults db bb ↔
      ∃ sv ∈ db.startVotes, sv.Token = x ∧ sv.EndHeight ≤ bb ∧
        (db.voteResults.countP fun vr => decide (vr.Token = x)) = 0 := by
  unfold missingVoteResults
  rw [List.mem_map]
  constructor
  · rintro ⟨sv, hmem, rfl⟩
    rw [List.mem_filter] at hmem
    obtain ⟨hm, hcond⟩ := hmem
    rw [Bool.and_eq_true, decide_eq_true_eq, Bool.not_eq_true', List.any_eq_false]
      at hcond
    refine ⟨sv, hm, rfl, hcond.1, ?_⟩
    rw [List.countP_eq_zero]
    intro vr hvr
    exact hcond.2 vr hvr
  · rintro ⟨sv, hm, rfl, hend, hcnt⟩
    refine ⟨sv, ?_, rfl⟩
    rw [List.mem_filter]
    refine ⟨hm, ?_⟩
    rw [Bool.and_eq_true, decide_eq_true_eq, Bool.not_eq_true', List.any_eq_false]
    rw [List.countP_eq_zero] at hcnt
    exact ⟨hend, fun vr hvr => hcnt vr hvr⟩

theorem countP_missing_le_one (db : Db) (bb : Nat) (x : String)
    (h : (db.startVotes.map StartVote.Token).Nodup) :
    ((missingVoteResults db bb).countP fun t => decide (t = x)) ≤ 1 := by
  unfold missingVoteResults
  rw [List.countP_map]
  have hsub : (db.startVotes.filter fun sv =>
      decide (sv.EndHeight ≤ bb) &&
      !(db.voteResults.any fun vr => decide (vr.Token = sv.Token))).Sublist db.startVotes :=
    List.filter_sublist db.startVotes
  have hnodup : ((db.startVotes.filter fun sv =>
      decide (sv.EndHeight ≤ bb) &&
      !(db.voteResults.any fun vr => decide (vr.Token = sv.Token))).map
        StartVote.Token).Nodup :=
    (hsub.map StartVote.Token).nodup h
  exact countP_le_one_of_nodup_map StartVote.Token x _ hnodup

theorem cmdLoadVoteResults_spec (db : Db) (bb : Nat) (x : String) :
    (cmdLoadVoteResults db (Msg.loadVoteResults ⟨bb⟩)).2 =
      Except.ok (Msg.loadVoteResultsReply ⟨⟩) ∧
    (cmdLoadVoteResults db (Msg.loadVoteResults ⟨bb⟩)).1.startVotes = db.startVotes ∧
    ((cmdLoadVoteResults db (Msg.loadVoteResults ⟨bb⟩)).1.voteResults.countP fun vr =>
        decide (vr.Token = x)) =
      (db.voteResults.countP fun vr => decide (vr.Token = x)) +
        ((missingVoteResults db bb).countP fun t => decide (t = x)) := by
  have hfind : ∀ t ∈ missingVoteResults db bb, ∃ sv ∈ db.startVotes, sv.Token = t := by
    intro t ht
    rw [mem_missingVoteResults] at ht
    obtain ⟨sv, hm, ht', _, _⟩ := ht
    exact ⟨sv, hm, ht'⟩
  obtain ⟨hok, hsv, hcount⟩ := loadTokens_spec x (missingVoteResults db bb) db hfind
  rcases hlt : loadTokens db (missingVoteResults db bb) with ⟨db', res⟩
  rw [hlt] at hok hsv hcount
  rw [show (db', res).2 = res from rfl] at hok
  subst hok
  simp only [cmdLoadVoteResults, foneroplugin.DecodeLoadVoteResults, hlt]
  exact ⟨rfl, hsv, hcount⟩

end cockroachdb

namespace cockroachdb

/-- C3: cmdTokenInventory fails with cache.ErrRecordNotFound whenever some
token has a StartVote whose end height is at most the best block but no
VoteResults row, and succeeds with a token-inventory reply (the five
categorized token lists) once cmdLoadVoteResults has materialized a
VoteResults row for every such token. -/
theorem claimC3_tokeninventory_gate (db : Db) (bb : Nat) :
    ((∃ sv ∈ db.startVotes, sv.EndHeight ≤ bb ∧
        (db.voteResults.countP fun vr => decide (vr.Token = sv.Token)) = 0) →
      cmdTokenInventory db (Msg.tokenInventory ⟨bb⟩) =
        Except.error CacheErr.errRecordNotFound) ∧
    (∃ r, cmdTokenInventory (cmdLoadVoteResults db (Msg.loadVoteResults ⟨bb⟩)).1
        (Msg.tokenInventory ⟨bb⟩) = Except.ok (Msg.tokenInventoryReply r)) := by
  constructor
  · rintro ⟨sv, hm, hend, hcnt⟩
    have hx : sv.Token ∈ missingVoteResults db bb :=
      (mem_missingVoteResults db bb sv.Token).mpr ⟨sv, hm, rfl, hend, hcnt⟩
    have hlen : 0 < (missingVoteResults db bb).length :=
      List.length_pos.mpr (List.ne_nil_of_mem hx)
    simp [cmdTokenInventory, foneroplugin.DecodeTokenInventory, hlen]
  · have hempty : missingVoteResults
        (cmdLoadVoteResults db (Msg.loadVoteResults ⟨bb⟩)).1 bb = [] := by
      by_contra hne
      obtain ⟨x, hx⟩ := List.exists_mem_of_ne_nil _ hne
      rw [mem_missingVoteResults] at hx
      obtain ⟨sv, hm, htk, hend, hcnt⟩ := hx
      obtain ⟨_, hsv1, hcount⟩ := cmdLoadVoteResults_spec db bb x
      rw [hsv1] at hm
      rw [hcount] at hcnt
      have hc0 : (db.voteResults.countP fun vr => decide (vr.Token = x)) = 0 := by
        omega
      have hxmem : x ∈ missingVoteResults db bb :=
        (mem_missingVoteResults db bb x).mpr ⟨sv, hm, htk, hend, hc0⟩
      have hpos : 0 < (missingVoteResults db bb).countP fun t => decide (t = x) := by
        rw [List.countP_pos_iff]
        exact ⟨x, hxmem, by simp⟩
      omega
    refine ⟨⟨preTokens (cmdLoadVoteResults db (Msg.loadVoteResults ⟨bb⟩)).1,
      activeTokens (cmdLoadVoteResults db (Msg.loadVoteResults ⟨bb⟩)).1 bb,
      approvedTokens (cmdLoadVoteResults db (Msg.loadVoteResults ⟨bb⟩)).1,
      rejectedTokens (cmdLoadVoteResults db (Msg.loadVoteResults ⟨bb⟩)).1,
      abandonedTokens (cmdLoadVoteResults db (Msg.loadVoteResults ⟨bb⟩)).1⟩, ?_⟩
    simp [cmdTokenInventory, foneroplugin.DecodeTokenInventory, hempty,
      foneroplugin.EncodeTokenInventoryReply]

/-- Witness for C3 on a cache holding one ended, unmaterialized vote at
best block 10. -/
theorem claimC3_tokeninventory_gate_witness :
    cmdTokenInventory exDbEnded (Msg.tokenInventory ⟨10⟩) =
      Except.error CacheErr.errRecordNotFound ∧
    (∃ r, cmdTokenInventory (cmdLoadVoteResults exDbEnded (Msg.loadVoteResults ⟨10⟩)).1
        (Msg.tokenInventory ⟨10⟩) = Except.ok (Msg.tokenInventoryReply r)) :=
  ⟨(claimC3_tokeninventory_gate exDbEnded 10).1
      ⟨exSVEnded, by decide, by decide, by decide⟩,
   (claimC3_tokeninventory_gate exDbEnded 10).2⟩

/-- C4: cmdLoadVoteResults is idempotent per token: for a token whose
voting period has ended (end height at most the best block), invoking the
command twice leaves exactly one VoteResults row for that token — the
command only materializes tokens with no existing row, so the second
invocation is a no-op for tokens materialized by the first. -/
theorem claimC4_loadvoteresults_idempotent (db : Db) (bb : Nat) (sv : StartVote)
    (hnodup : (db.startVotes.map StartVote.Token).Nodup)
    (hmem : sv ∈ db.startVotes)
    (hend : sv.EndHeight ≤ bb)
    (hcnt : (db.voteResults.countP fun vr => decide (vr.Token = sv.Token)) ≤ 1) :
    ((cmdLoadVoteResults db (Msg.loadVoteResults ⟨bb⟩)).1.voteResults.countP fun vr =>
        decide (vr.Token = sv.Token)) = 1 ∧
    ((cmdLoadVoteResults (cmdLoadVoteResults db (Msg.loadVoteResults ⟨bb⟩)).1
        (Msg.loadVoteResults ⟨bb⟩)).1.voteResults.countP fun vr =>
        decide (vr.Token = sv.Token)) = 1 := by
  obtain ⟨_, hsv1, hcount1⟩ := cmdLoadVoteResults_spec db bb sv.Token
  have hmle : ((missingVoteResults db bb).countP fun t => decide (t = sv.Token)) ≤ 1 :=
    countP_missing_le_one db bb sv.Token hnodup
  have h1 : ((cmdLoadVoteResults db (Msg.loadVoteResults ⟨bb⟩)).1.voteResults.countP
      fun vr => decide (vr.Token = sv.Token)) = 1 := by
    rcases Nat.lt_or_ge (db.voteResults.countP fun vr => decide (vr.Token = sv.Token)) 1
      with hc | hc
    · have hc0 : (db.voteResults.countP fun vr => decide (vr.Token = sv.Token)) = 0 := by
        omega
      have hxmem : sv.Token ∈ missingVoteResults db bb :=
        (mem_missingVoteResults db bb sv.Token).mpr ⟨sv, hmem, rfl, hend, hc0⟩
      have hpos : 0 < (missingVoteResults db bb).countP fun t =>
          decide (t = sv.Token) := by
        rw [List.countP_pos_iff]
        exact ⟨sv.Token, hxmem, by simp⟩
      omega
    · have hnm : sv.Token ∉ missingVoteResults db bb := by
        intro hx
        rw [mem_missingVoteResults] at hx
        obtain ⟨sv', _, _, _, hz⟩ := hx
        omega
      have hm0 : ((missingVoteResults db bb).countP fun t =>
          decide (t = sv.Token)) = 0 := by
        rw [List.countP_eq_zero]
        intro t ht he
        rw [decide_eq_true_eq] at he
        exact hnm (he ▸ ht)
      omega
  refine ⟨h1, ?_⟩
  obtain ⟨_, hsv2, hcount2⟩ := cmdLoadVoteResults_spec
    (cmdLoadVoteResults db (Msg.loadVoteResults ⟨bb⟩)).1 bb sv.Token
  have hm0' : ((missingVoteResults
      (cmdLoadVoteResults db (Msg.loadVoteResults ⟨bb⟩)).1 bb).countP
      fun t => decide (t = sv.Token)) = 0 := by
    rw [List.countP_eq_zero]
    intro t ht he
    rw [decide_eq_true_eq] at he
    subst he
    rw [mem_missingVoteResults] at ht
    obtain ⟨sv', _, _, _, hz⟩ := ht
    omega
  omega

/-- Witness for C4 on a cache holding one ended, unmaterialized vote at
best block 10. -/
theorem claimC4_loadvoteresults_idempotent_witness :
    ((cmdLoadVoteResults exDbEnded (Msg.loadVoteResults ⟨10⟩)).1.voteResults.countP
      fun vr => decide (vr.Token = exSVEnded.Token)) = 1 ∧
    ((cmdLoadVoteResults (cmdLoadVoteResults exDbEnded (Msg.loadVoteResults ⟨10⟩)).1
        (Msg.loadVoteResults ⟨10⟩)).1.voteResults.countP
      fun vr => decide (vr.Token = exSVEnded.Token)) = 1 :=
  claimC4_loadvoteresults_idempotent exDbEnded 10 exSVEnded (by decide) (by decide)
    (by decide) (by decide)

end cockroachdb

namespace cockroachdb

theorem foldl_add : ∀ (l : List Nat) (n : Nat), l.foldl (· + ·) n = n + l.foldl (· + ·) 0
  | [], n => by simp
  | x :: xs, n => by
    rw [List.foldl_cons, List.foldl_cons, foldl_add xs (n + x), foldl_add xs (0 + x)]
    omega

theorem countP_or_split {α : Type} (p q : α → Bool) :
    ∀ l : List α, (∀ a ∈ l, ¬(p a = true ∧ q a = true)) →
      (l.countP fun a => p a || q a) = l.countP p + l.countP q
  | [], _ => by simp
  | x :: xs, h => by
    have hx := h x (by simp)
    have ih := countP_or_split p q xs (fun a ha => h a (by simp [ha]))
    rw [List.countP_cons, List.countP_cons, List.countP_cons, ih]
    cases hp : p x <;> cases hq : q x <;> simp [hp, hq] at hx ⊢ <;> omega

theorem foldl_ite_of_countP_eq_zero {α β : Type} (p : α → Prop) [DecidablePred p]
    (g : α → β) :
    ∀ (l : List α) (b : β), (l.countP fun a => decide (p a)) = 0 →
      l.foldl (fun acc v => if p v then g v else acc) b = b
  | [], b, _ => rfl
  | x :: xs, b, h => by
    rw [List.countP_cons] at h
    by_cases hx : p x
    · simp [hx] at h
    · rw [List.foldl_cons, if_neg hx]
      exact foldl_ite_of_countP_eq_zero p g xs b (by simpa [hx] using h)

theorem foldl_ite_of_countP_le_one {α β : Type} (p : α → Prop) [DecidablePred p]
    (g : α → β) :
    ∀ (l : List α) (b : β), (l.countP fun a => decide (p a)) ≤ 1 →
      l.foldl (fun acc v => if p v then g v else acc) b =
        (match l.find? fun a => decide (p a) with
         | none => b
         | some v => g v)
  | [], b, _ => rfl
  | x :: xs, b, h => by
    rw [List.countP_cons] at h
    by_cases hx : p x
    · rw [List.foldl_cons, if_pos hx, List.find?_cons_of_pos _ (by simp [hx])]
      have hz : (xs.countP fun a => decide (p a)) = 0 := by
        have hd : decide (p x) = true := by simp [hx]
        rw [hd] at h
        simp at h
        rw [List.countP_eq_zero]
        intro a ha
        simpa using h a ha
      exact foldl_ite_of_countP_eq_zero p g xs (g x) hz
    · rw [List.foldl_cons, if_neg hx, List.find?_cons_of_neg _ (by simp [hx])]
      exact foldl_ite_of_countP_le_one p g xs b (by simpa [hx] using h)

theorem sum_map_tallies (cv : List CastVote) :
    ∀ opts : List VoteOption, ((opts.map fun o => natToHex o.Bits).Nodup) →
      ((opts.map fun o => tallyFor cv (natToHex o.Bits)).foldl (· + ·) 0) =
        cv.countP fun c => opts.any fun o => decide (c.VoteBit = natToHex o.Bits)
  | [], _ => by simp
  | o :: os, h => by
    rw [List.map_cons, List.nodup_cons] at h
    obtain ⟨hni, hnd⟩ := h
    have hdisj : ∀ c ∈ cv,
        ¬((decide (c.VoteBit = natToHex o.Bits)) = true ∧
          (os.any fun o' => decide (c.VoteBit = natToHex o'.Bits)) = true) := by
      rintro c _ ⟨hp, hq⟩
      rw [decide_eq_true_eq] at hp
      rw [List.any_eq_true] at hq
      obtain ⟨o', ho', hb⟩ := hq
      rw [decide_eq_true_eq] at hb
      exact hni (List.mem_map.mpr ⟨o', ho', by rw [← hb, ← hp]⟩)
    rw [List.map_cons, List.foldl_cons, foldl_add, sum_map_tallies cv os hnd]
    simp only [List.any_cons]
    rw [countP_or_split (fun c => decide (c.VoteBit = natToHex o.Bits))
      (fun c => os.any fun o' => decide (c.VoteBit = natToHex o'.Bits)) cv hdisj]
    have hself : (cv.countP fun c => decide (c.VoteBit = natToHex o.Bits)) =
        tallyFor cv (natToHex o.Bits) := rfl
    omega

theorem totalFor_eq (db : Db) (token : String) (sv : StartVote)
    (hbits : (sv.Options.map fun o => natToHex o.Bits).Nodup) :
    totalFor db token sv =
      (db.castVotes.filter fun v => decide (v.Token = token)).countP fun c =>
        sv.Options.any fun o => decide (c.VoteBit = natToHex o.Bits) := by
  unfold totalFor resultsFor
  rw [List.map_map]
  rw [show (VoteOptionResult.Votes ∘ fun v =>
      ({ Key := token ++ natToHex v.Bits
         Votes := tallyFor (tokenVotes db token) (natToHex v.Bits)
         Option := v } : VoteOptionResult)) =
      (fun o => tallyFor (tokenVotes db token) (natToHex o.Bits)) from
    funext fun o => rfl]
  rw [sum_map_tallies (tokenVotes db token) sv.Options hbits]
  rfl

theorem approvedVotesFor_eq (db : Db) (token : String) (sv : StartVote)
    (hids : (sv.Options.map VoteOption.ID).Nodup) :
    approvedVotesFor db token sv =
      (match sv.Options.find? fun o => decide (o.ID = voteOptionIDApproved) with
       | none => 0
       | some o => (db.castVotes.filter fun v => decide (v.Token = token)).countP
           fun c => decide (c.VoteBit = natToHex o.Bits)) := by
  unfold approvedVotesFor resultsFor
  rw [List.foldl_map]
  rw [show (fun (acc : Nat) (o : VoteOption) =>
      if ({ Key := token ++ natToHex o.Bits
            Votes := tallyFor (tokenVotes db token) (natToHex o.Bits)
            Option := o } : VoteOptionResult).Option.ID = voteOptionIDApproved
      then ({ Key := token ++ natToHex o.Bits
              Votes := tallyFor (tokenVotes db token) (natToHex o.Bits)
              Option := o } : VoteOptionResult).Votes
      else acc) =
      (fun (acc : Nat) (o : VoteOption) =>
        if o.ID = voteOptionIDApproved
        then tallyFor (tokenVotes db token) (natToHex o.Bits)
        else acc) from
    funext fun acc => funext fun o => rfl]
  rw [foldl_ite_of_countP_le_one (fun o : VoteOption => o.ID = voteOptionIDApproved)
    (fun o => tallyFor (tokenVotes db token) (natToHex o.Bits)) sv.Options 0
    (countP_le_one_of_nodup_map VoteOption.ID voteOptionIDApproved sv.Options hids)]
  cases hfind : sv.Options.find? fun o => decide (o.ID = voteOptionIDApproved) with
  | none => rfl
  | some o => rfl

theorem ifchain_eq (t q a p : Nat) :
    (if t < q then false else if a < p then false else true) =
      (decide (q ≤ t) && decide (p ≤ a)) := by
  by_cases h1 : t < q
  · have h1' : ¬(q ≤ t) := by omega
    simp [h1, h1']
  · by_cases h2 : a < p
    · have h2' : ¬(p ≤ a) := by omega
      simp [h1, h2, h2']
    · have hq : q ≤ t := by omega
      have hp : p ≤ a := by omega
      simp [h1, h2, hq, hp]

theorem approved_eq_amended (db : Db) (token : String) (sv : StartVote)
    (hbits : (sv.Options.map fun o => natToHex o.Bits).Nodup)
    (hids : (sv.Options.map VoteOption.ID).Nodup)
    (hcount : sv.EligibleTicketCount = eligibleUniverse sv) :
    (voteResultsRowFor db token sv).Approved = claimC1AmendedApproved db token sv := by
  have ht := totalFor_eq db token sv hbits
  have ha := approvedVotesFor_eq db token sv hids
  show (if totalFor db token sv < quorumOf sv then false
        else if approvedVotesFor db token sv <
            sv.PassPercentage * totalFor db token sv / 100 then false
        else true) = claimC1AmendedApproved db token sv
  have hq : quorumOf sv = sv.QuorumPercentage * sv.EligibleTicketCount / 100 := by
    unfold quorumOf
    rw [hcount]
  rw [ht, ha, hq]
  unfold claimC1AmendedApproved
  exact ifchain_eq _ _ _ _

end cockroachdb

namespace cockroachdb

/-- C1 as amended: for every proposal whose StartVote is found (options
with pairwise-distinct hex bit strings and pairwise-distinct ids, and a
stored EligibleTicketCount agreeing with the comma-segment eligible
universe), newVoteResults appends one VoteResults row and marks it
approved exactly when totalVotes >= quorum and approvedOptionVotes >=
pass — where totalVotes counts only the cast-vote rows whose vote bit
matches the hex bit string of some option (the sum of the per-option
tallies, not the raw row count), quorum = floor(quorumPercentage/100 *
eligibleTicketCount), pass = floor(passPercentage/100 * totalVotes), and
approvedOptionVotes is the tallied count for the option whose id is
"yes"; in particular, with one hundred eligible tickets, twenty percent
quorum and sixty percent pass, twenty yes and ten no votes give
approved = true, and ten yes and five no votes give approved = false. -/
theorem claimC1_vote_approval (db : Db) (token : String) (sv : StartVote) :
    ((db.startVotes.find? fun s => decide (s.Token = token)) = some sv →
      (sv.Options.map fun o => natToHex o.Bits).Nodup →
      (sv.Options.map VoteOption.ID).Nodup →
      sv.EligibleTicketCount = eligibleUniverse sv →
      newVoteResults db token = Except.ok { db with voteResults :=
          db.voteResults ++ [voteResultsRowFor db token sv] } ∧
      (voteResultsRowFor db token sv).Approved = claimC1AmendedApproved db token sv) ∧
    (voteResultsRowFor exC1DbA "t" exC1StartVote).Approved = true ∧
    (voteResultsRowFor exC1DbB "t" exC1StartVote).Approved = false := by
  refine ⟨?_, by decide, by decide⟩
  intro hfind hbits hids hcount
  exact ⟨newVoteResults_ok db token sv hfind,
    approved_eq_amended db token sv hbits hids hcount⟩

/-- C1 counterexample to the claim as stated: token t has two options
(no = bit 1, yes = bit 2), five eligible tickets, forty percent quorum,
fifty percent pass, and two stored cast votes — one yes vote and one vote
whose bit 5 matches no option. The claim's formula (totalVotes = number
of stored CastVote rows = 2, quorum = 2, pass = 1, yes votes = 1) says
approved = true, but newVoteResults computes total = 1 (the junk-bit row
is tallied into no option), misses the quorum, and stores
approved = false. -/
theorem claimC1_vote_approval_counterexample :
    claimC1StatedApproved cexC1Db "t" cexC1StartVote = true ∧
    newVoteResults cexC1Db "t" = Except.ok { cexC1Db with voteResults :=
        cexC1Db.voteResults ++ [voteResultsRowFor cexC1Db "t" cexC1StartVote] } ∧
    (voteResultsRowFor cexC1Db "t" cexC1StartVote).Approved = false :=
  ⟨by decide, rfl, by decide⟩

/-- Witness for C1 at the first concrete example database. -/
theorem claimC1_vote_approval_witness :
    newVoteResults exC1DbA "t" = Except.ok { exC1DbA with voteResults :=
        exC1DbA.voteResults ++ [voteResultsRowFor exC1DbA "t" exC1StartVote] } ∧
    (voteResultsRowFor exC1DbA "t" exC1StartVote).Approved =
      claimC1AmendedApproved exC1DbA "t" exC1StartVote :=
  (claimC1_vote_approval exC1DbA "t" exC1StartVote).1 rfl (by decide) (by decide)
    (by decide)

end cockroachdb
